import Mathlib

/-!
Verification of the metadata-driven ETL pipeline (schema synthesis, constraint
enforcement, load strategies, SCD merge engine, incremental tracker) against its
natural-language specification.  The Python modules under scripts/ are shallowly
embedded: DataFrames become lists of rows, SQL tables become lists of rows, the
backing store's statement execution becomes explicit state passing, and the
points where the backing store may reject a statement are made explicit Boolean
fault parameters.  SQL three-valued comparison semantics (NULL never equal) are
modelled with Option values and explicit both-non-null equality.
-/

namespace ETL

/-- A cell value: the pipeline moves integers and strings (every other SQL type
is opaque data for the properties considered here). -/
inductive Val
  | vint (i : Int)
  | vstr (s : String)
deriving DecidableEq, Repr

/-- A nullable cell: `none` is SQL NULL / pandas NaN. -/
abbrev Cell := Option Val

/-- A data row: association list from column name to nullable value, in column
order.  This models both a pandas DataFrame row and a stored SQL table row. -/
abbrev Row := List (String × Cell)

/-- Read a column of a row; absent column and NULL value both read as `none`
(rows are always aligned to their table's column list before use). -/
def getV (r : Row) (c : String) : Cell := (r.lookup c).join

/-- `UPDATE ... SET [c] = v`: overwrite the value of an existing column; a row
that does not carry the column is unchanged (SQL UPDATE touches real columns). -/
def rowSet (r : Row) (c : String) (v : Cell) : Row :=
  r.map (fun p => if p.1 = c then (p.1, v) else p)

/-- Project a row onto a column list, in that order (models `df[cols]` and the
column list of an INSERT/VALUES clause). -/
def projectCols (cols : List String) (r : Row) : Row :=
  cols.map (fun c => (c, getV r c))

/-- The tuple of key-column values of a row (`None` for NULL). -/
def keyProj (keyCols : List String) (r : Row) : List Cell :=
  keyCols.map (getV r)

/-- SQL equality of two cells: true only when both are non-NULL and equal. -/
def sqlEqCell (a b : Cell) : Bool :=
  match a, b with
  | some x, some y => decide (x = y)
  | _, _ => false

/-- SQL join condition `t.[c] = s.[c]` over every key column. -/
def sqlKeyMatch (keyCols : List String) (t s : Row) : Bool :=
  keyCols.all (fun c => sqlEqCell (getV t c) (getV s c))

/-- Python `x or d` over a nullable integer: `None` and `0` are falsy. -/
def pyOr (v : Option Int) (d : Int) : Int :=
  match v with
  | none => d
  | some x => if x = 0 then d else x

/-- Python `str.lower()` (ASCII, which covers every identifier in play). -/
def toLowerStr (s : String) : String := String.mk (s.data.map Char.toLower)

/-- Python `str.upper()` (ASCII). -/
def toUpperStr (s : String) : String := String.mk (s.data.map Char.toUpper)

/-- Split a character list at every occurrence of a separator
(Python `str.split(sep)` on a single-character separator). -/
def splitOnCharAux (sep : Char) : List Char → List Char → List (List Char)
  | [], acc => [acc.reverse]
  | c :: rest, acc =>
    if c = sep then acc.reverse :: splitOnCharAux sep rest []
    else splitOnCharAux sep rest (c :: acc)

/-- Python `s.split(sep)` for a one-character separator. -/
def splitOnChar (sep : Char) (s : String) : List String :=
  (splitOnCharAux sep s.data []).map String.mk

/-- Split at the first occurrence of a separator: the part before it and,
when the separator occurs, the part after it (Python `s.split(sep, 1)` and
the `sep in s` test in one). -/
def breakAtChar (sep : Char) : List Char → List Char × Option (List Char)
  | [] => ([], none)
  | c :: rest =>
    if c = sep then ([], some rest)
    else
      let r := breakAtChar sep rest
      (c :: r.1, r.2)

/-- One Metadata table row (columns of the Metadata catalog table; the table has
no Precision, Scale or ReferenceSchema column). -/
structure MetaRow where
  jobName : String := ""
  sourceColumnName : String := ""
  targetColumnName : String
  targetDataType : String
  length : Option Int := none
  isPK : Option Int := none
  isFK : Option Int := none
  isNullable : Option Int := none
  referenceTable : Option String := none
deriving DecidableEq, Repr

/-- One Config table row (fields used by the embedded stages). -/
structure JobConfig where
  targetSchema : String
  targetTable : String
  loadType : String
  scdType : Option Int := none
deriving DecidableEq, Repr

/-- Stage status as reported in result records and audit rows. -/
inductive Status
  | success
  | error
deriving DecidableEq, Repr

-- ---------------------------------------------------------------------------
-- Schema synthesis (scripts/create_ddl.py)
-- ---------------------------------------------------------------------------

/-- Variable-length SQL types (create_ddl.py VARLEN_TYPES). -/
def VARLEN_TYPES : List String := ["NVARCHAR", "VARCHAR"]

/-- Allowed SQL types for the type-mapping table (create_ddl.py ALLOWED_TYPES). -/
def ALLOWED_TYPES : List String :=
  VARLEN_TYPES ++ ["INT", "BIGINT", "DECIMAL", "NUMERIC", "FLOAT", "BIT", "DATETIME", "DATE"]

/-- `_build_column_def` (create_ddl.py lines 19-61).  The Metadata query selects
no Precision/Scale column, so `meta_row.get` yields None there and the defaults
18 and 0 always apply.  The unused `scd_type` parameter of the Python function
is dropped.  Raises are modelled as `Except.error` carrying the message. -/
def build_column_def (m : MetaRow) (schema : String) : Except String String :=
  let col := m.targetColumnName
  let dtype := toUpperStr m.targetDataType
  let length := pyOr m.length 0
  if toLowerStr schema = "raw" then
    Except.ok ("[" ++ col ++ "] NVARCHAR(MAX) NULL")
  else if ALLOWED_TYPES.contains dtype = false then
    Except.error ("Unsupported data type: " ++ dtype)
  else if VARLEN_TYPES.contains dtype && decide (length ≤ 0) then
    Except.error (dtype ++ " requires positive Length for column " ++ col)
  else
    let base0 :=
      if VARLEN_TYPES.contains dtype then
        "[" ++ col ++ "] " ++ dtype ++ "(" ++ toString length ++ ")"
      else
        "[" ++ col ++ "] " ++ dtype
    let base :=
      if dtype = "DECIMAL" ∨ dtype = "NUMERIC" then
        "[" ++ col ++ "] " ++ dtype ++ "(18,0)"
      else base0
    let nullable := if pyOr m.isNullable 1 = 1 then " NULL" else " NOT NULL"
    if toLowerStr schema = "curated" ∧ pyOr m.isPK 0 = 1 then
      Except.ok (base ++ " PRIMARY KEY NOT NULL")
    else if toLowerStr schema = "processed" then
      Except.ok (base ++ nullable)
    else if pyOr m.isPK 0 = 1 then
      Except.ok (base ++ " PRIMARY KEY NOT NULL")
    else
      Except.ok (base ++ nullable)

/-- `ref.split(".", 1)` with default schema dbo (create_ddl.py lines 79-83). -/
def ddl_reference_target (ref : String) : String × String :=
  match breakAtChar '.' ref.data with
  | (_, none) => ("dbo", ref)
  | (pre, some post) => (String.mk pre, String.mk post)

/-- Python truthiness of `r.get("ReferenceTable")` in `_foreign_key_clauses`. -/
def truthyRef : Option String → Bool
  | none => false
  | some s => decide (s ≠ "")

/-- Worker for `_foreign_key_clauses`, threading the seen-FK set. -/
def fkClausesGo (refExistsFn : String → String → Bool) :
    List MetaRow → List (String × String × String) → List String
  | [], _ => []
  | r :: rest, seen =>
    if pyOr r.isFK 0 = 1 ∧ truthyRef r.referenceTable then
      let col := r.targetColumnName
      let rs := ddl_reference_target (r.referenceTable.getD "")
      let key := (col, rs.1, rs.2)
      if seen.contains key then
        fkClausesGo refExistsFn rest seen
      else if refExistsFn rs.1 rs.2 = false then
        -- referenced table does not exist: clause silently dropped
        fkClausesGo refExistsFn rest (seen ++ [key])
      else
        ("FOREIGN KEY ([" ++ col ++ "]) REFERENCES [" ++ rs.1 ++ "].[" ++ rs.2 ++ "]([" ++ col ++ "])")
          :: fkClausesGo refExistsFn rest (seen ++ [key])
    else
      fkClausesGo refExistsFn rest seen

/-- `_foreign_key_clauses` (create_ddl.py lines 64-101): deduplicate by
(column, referenced schema, referenced table), skip missing referenced tables. -/
def foreign_key_clauses (refExistsFn : String → String → Bool) (rows : List MetaRow) : List String :=
  fkClausesGo refExistsFn rows []

/-- Accumulator of the per-column loop of `create_target_tables`. -/
structure ColAcc where
  colDefs : List String
  seen : List (String × String × Option Int)
  errors : List String
deriving DecidableEq, Repr

/-- Per-column loop of `create_target_tables` (create_ddl.py lines 185-195):
duplicate (name, type, length) keys are reported and skipped, a failing
`_build_column_def` appends its message and the loop continues. -/
def buildColumnsGo (schema table : String) : List MetaRow → ColAcc → ColAcc
  | [], acc => acc
  | m :: rest, acc =>
    let key := (m.targetColumnName, m.targetDataType, m.length)
    if acc.seen.contains key then
      buildColumnsGo schema table rest
        { acc with errors := acc.errors ++
            ["Duplicate column " ++ m.targetColumnName ++ " in " ++ schema ++ "." ++ table] }
    else
      let acc1 := { acc with seen := acc.seen ++ [key] }
      match build_column_def m schema with
      | Except.ok d => buildColumnsGo schema table rest { acc1 with colDefs := acc1.colDefs ++ [d] }
      | Except.error e => buildColumnsGo schema table rest { acc1 with errors := acc1.errors ++ [e] }

/-- `_validate_primary_keys` (create_ddl.py lines 118-128): the set of distinct
PK column names must have at most one element (raw is exempt). -/
def validatePrimaryKeysOk (schema : String) (columns : List MetaRow) : Bool :=
  if toLowerStr schema = "raw" then true
  else
    decide (((columns.filter (fun c => pyOr c.isPK 0 = 1)).map
      (fun c => c.targetColumnName)).dedup.length ≤ 1)

/-- The three SCD2 history column definitions appended for processed SCD2
tables (create_ddl.py lines 198-202, without the prepended RowID). -/
def scd2HistoryDefs : List String :=
  ["[StartTime] DATETIME NOT NULL DEFAULT (GETDATE())",
   "[EndTime] DATETIME NULL",
   "[IsCurrent] BIT NOT NULL DEFAULT (1)"]

/-- Result of `create_target_tables` for one job: the returned status record,
the accumulated ddl_errors, and the table the CREATE TABLE statement produced
(`none` when no statement ran or it was rejected). -/
structure DdlResult where
  status : Status
  errors : List String
  createdTable : Option (String × String × List String)
deriving DecidableEq, Repr

/-- `create_target_tables` (create_ddl.py lines 131-243).  All joined rows share
the job's single Config row, so the group-by over (TargetSchema, TargetTable)
always yields exactly one group; that one group's loop body is embedded.
`int(rows[0].get("SCDType", 1))` raises TypeError when SCDType is NULL (the
mapping holds the key with value None), and `job_name.split('_')[1]` raises
IndexError when the job name has no second segment; both raises are caught by
the outer handler, which marks the job failed.  A CREATE TABLE with an empty
column list is rejected by the backing store; one with at least one column
definition executes. -/
def create_target_tables (tableExistsFn : String → String → Bool)
    (refExistsFn : String → String → Bool) (jobName : String)
    (cfg : JobConfig) (metadata : List MetaRow) : DdlResult :=
  if metadata.isEmpty then
    { status := Status.error,
      errors := ["No metadata/config found for job " ++ jobName],
      createdTable := none }
  else
    let schema := cfg.targetSchema
    let table := cfg.targetTable
    match cfg.scdType with
    | none =>
      { status := Status.error,
        errors := ["int() argument must be a string, a bytes-like object or a real number, not NoneType"],
        createdTable := none }
    | some scd =>
      let derived : Option String :=
        if ["raw", "curated", "processed"].contains (toLowerStr schema) then
          ((splitOnChar '_' jobName).get? 1).map (fun p => toLowerStr schema ++ "_" ++ toLowerStr p)
        else some table
      match derived with
      | none =>
        { status := Status.error, errors := ["list index out of range"], createdTable := none }
      | some tableName =>
        if tableExistsFn schema tableName then
          { status := Status.success, errors := [], createdTable := none }
        else if validatePrimaryKeysOk schema metadata = false then
          { status := Status.error,
            errors := ["Job " ++ jobName ++ " for table " ++ schema ++ "." ++ table ++
              " has multiple PK columns. Only one PRIMARY KEY is allowed."],
            createdTable := none }
        else
          let acc := buildColumnsGo schema table metadata ⟨[], [], []⟩
          let defs1 :=
            if toLowerStr schema = "processed" ∧ scd = 2 then
              ["[RowID] INT IDENTITY(1,1) PRIMARY KEY"] ++ acc.colDefs ++ scd2HistoryDefs
            else acc.colDefs
          let allDefs := defs1 ++ foreign_key_clauses refExistsFn metadata
          if allDefs.isEmpty then
            { status := Status.error,
              errors := acc.errors ++ ["CREATE TABLE rejected: empty column list"],
              createdTable := none }
          else
            { status := if acc.errors.isEmpty then Status.success else Status.error,
              errors := acc.errors,
              createdTable := some (schema, tableName, allDefs) }

-- ---------------------------------------------------------------------------
-- Constraint enforcement (scripts/raw_curated.py)
-- ---------------------------------------------------------------------------

/-- Keep, per duplicate key, only the last occurrence in source order
(pandas `drop_duplicates(subset=key, keep="last")`). -/
def dropDupKeepLast {K : Type} [DecidableEq K] (key : Row → K) : List Row → List Row
  | [] => []
  | r :: rs =>
    if rs.any (fun r2 => decide (key r2 = key r)) then dropDupKeepLast key rs
    else r :: dropDupKeepLast key rs

/-- PK column names of a metadata list (`m.get("IsPK") == 1`). -/
def pkColsOf (metadata : List MetaRow) : List String :=
  (metadata.filter (fun m => decide (m.isPK = some 1))).map (fun m => m.targetColumnName)

/-- A row is valid for a PK column set when no PK column is NULL. -/
def pkValid (pkCols : List String) (r : Row) : Bool :=
  pkCols.all (fun c => (getV r c).isSome)

/-- Primary-key rule of `enforce_pk_fk` (raw_curated.py lines 65-77):
`df.dropna(subset=pk_cols)` then `df.drop_duplicates(subset=pk_cols,
keep="last")`, skipped entirely when no PK column is declared. -/
def pkStepF (pkCols : List String) (df : List Row) : List Row :=
  if pkCols.isEmpty then df
  else dropDupKeepLast (keyProj pkCols) (df.filter (pkValid pkCols))

/-- NOT NULL column names of a metadata list (`m.get("IsNullable") == 0`). -/
def notNullColsOf (metadata : List MetaRow) : List String :=
  (metadata.filter (fun m => decide (m.isNullable = some 0))).map (fun m => m.targetColumnName)

/-- NOT NULL rule of `enforce_pk_fk` (raw_curated.py lines 79-91): one
`dropna([col])` per flagged column, only when the column exists in the frame. -/
def notNullStep (dfCols : List String) (notNullCols : List String) (df : List Row) : List Row :=
  notNullCols.foldl
    (fun acc c => if dfCols.contains c then acc.filter (fun r => (getV r c).isSome) else acc)
    df

/-- Python membership test of `enforce_pk_fk`'s fk_rules filter:
`m.get("ReferenceTable") not in (None, "NULL", "")`. -/
def fkRuleRef : Option String → Bool
  | none => false
  | some s => decide (s ≠ "NULL") && decide (s ≠ "")

/-- FK rules of a metadata list (raw_curated.py lines 94-97). -/
def fkRulesOf (metadata : List MetaRow) : List MetaRow :=
  metadata.filter (fun m => decide (m.isFK = some 1) && fkRuleRef m.referenceTable)

/-- Schema and table the Raw→Curated FK enforcement queries for a rule
(raw_curated.py lines 100-101): `rule.get("ReferenceSchema", "curated")` always
yields the default because the Metadata table has no ReferenceSchema column,
and the ReferenceTable string is used whole as the table name. -/
def enforcement_reference_target (m : MetaRow) : String × String :=
  ("curated", m.referenceTable.getD "")

/-- FK rule of `enforce_pk_fk` (raw_curated.py lines 98-128).  `refLookup`
models `SELECT DISTINCT [col] FROM [schema].[table]` returning the distinct
non-NULL values (the code drops NULLs from the result); a failed lookup makes
the whole rule a recorded skip and the batch passes unfiltered for it. -/
def fkStep (refLookup : String → String → String → Except String (List Val))
    (rules : List MetaRow) (df : List Row) : List Row :=
  rules.foldl
    (fun acc rule =>
      let col := rule.targetColumnName
      let tgt := enforcement_reference_target rule
      match refLookup tgt.1 tgt.2 col with
      | Except.error _ => acc
      | Except.ok vals =>
        acc.filter (fun r =>
          match getV r col with
          | some v => vals.contains v
          | none => false))
    df

/-- `enforce_pk_fk` (raw_curated.py lines 58-136): PK rule, then NOT NULL rule,
then FK rule, in that order.  The structured audit entries are print-only in
the source and do not affect the returned frame. -/
def enforce_pk_fk (refLookup : String → String → String → Except String (List Val))
    (metadata : List MetaRow) (dfCols : List String) (df : List Row) : List Row :=
  fkStep refLookup (fkRulesOf metadata)
    (notNullStep dfCols (notNullColsOf metadata) (pkStepF (pkColsOf metadata) df))

/-- Is a cell a negative number? -/
def isNegCell : Cell → Bool
  | some (Val.vint i) => decide (i < 0)
  | _ => false

/-- `enforce_no_negative` (raw_curated.py lines 139-151): drop any row holding
a value below zero in a numeric-dtyped column; `numericCols` is the set of
columns pandas `select_dtypes(include=["number"])` reports after the cast. -/
def enforce_no_negative (numericCols : List String) (df : List Row) : List Row :=
  df.filter (fun r => !(numericCols.any (fun c => isNegCell (getV r c))))

/-- Steps 3-4 of `load_raw_to_curated` as the code orders them
(raw_curated.py lines 205-208): `enforce_no_negative` runs first, then
`enforce_pk_fk`. -/
def rawToCuratedConstraintPhase (refLookup : String → String → String → Except String (List Val))
    (metadata : List MetaRow) (dfCols numericCols : List String) (df : List Row) : List Row :=
  enforce_pk_fk refLookup metadata dfCols (enforce_no_negative numericCols df)

/-- Modelled from the spec: the constraint rules applied in the spec's order —
primary key, then not-null, then foreign key, then the no-negative-numeric
filter last. -/
def specOrderConstraintPhase (refLookup : String → String → String → Except String (List Val))
    (metadata : List MetaRow) (dfCols numericCols : List String) (df : List Row) : List Row :=
  enforce_no_negative numericCols (enforce_pk_fk refLookup metadata dfCols df)

-- ---------------------------------------------------------------------------
-- Load strategies (scripts/load_type.py) and dispatch (curated_processed.py)
-- ---------------------------------------------------------------------------

/-- A stage result record: status, rows affected, message. -/
structure LoadOutcome where
  status : Status
  rows : Nat
  message : String
deriving DecidableEq, Repr

/-- The IncrementalTracker table: one LastLoadTime per (JobName, Stage). -/
abbrev Tracker := List ((String × String) × Nat)

/-- `_update_incremental_tracker` (load_type.py lines 23-38): MERGE upsert
keyed on (JobName, Stage). -/
def trackerUpsert (job stage : String) (t : Nat) (tr : Tracker) : Tracker :=
  if tr.any (fun e => decide (e.1 = (job, stage))) then
    tr.map (fun e => if e.1 = (job, stage) then (e.1, t) else e)
  else
    tr ++ [((job, stage), t)]

/-- Update the non-key columns of a matched target row from the source row
(`WHEN MATCHED THEN UPDATE SET t.[c] = s.[c]` over non-key target columns). -/
def updateNonKey (keyCols targetCols : List String) (t s : Row) : Row :=
  (targetCols.filter (fun c => !(keyCols.contains c))).foldl
    (fun r c => rowSet r c (getV s c)) t

/-- T-SQL `MERGE ... WHEN MATCHED THEN UPDATE ... WHEN NOT MATCHED THEN INSERT`
keyed on `keyCols`: every target row matches against the pre-statement source;
a target row matched by two or more source rows makes the statement fail
(MERGE may not update the same row twice); unmatched source rows are appended
with the insert column list `targetCols`. -/
def mergeUpsert (keyCols targetCols : List String) (source target : List Row) :
    Except String (List Row) :=
  if target.any (fun t => decide (2 ≤ source.countP (fun s => sqlKeyMatch keyCols t s))) then
    Except.error "MERGE cannot update the same target row more than once"
  else
    Except.ok
      ((target.map (fun t =>
          match source.find? (fun s => sqlKeyMatch keyCols t s) with
          | some s => updateNonKey keyCols targetCols t s
          | none => t)) ++
       ((source.filter (fun s => !(target.any (fun t => sqlKeyMatch keyCols t s)))).map
          (projectCols targetCols)))

/-- `full_load` (load_type.py lines 42-61).  The TRUNCATE runs inside its own
`engine.begin()` transaction and commits before the separate `df.to_sql`
append; `appendFails` marks the append being rejected by the backing store, in
which case the already-committed truncate is not rolled back.  The function
never touches the tracker.  Returns the new target table and the result
record. -/
def full_load (appendFails : Bool) (df : List Row) (_target : List Row) :
    List Row × LoadOutcome :=
  let truncated : List Row := []
  if df.isEmpty then
    (truncated, ⟨Status.success, 0, "Full load completed: 0 rows"⟩)
  else if appendFails then
    (truncated, ⟨Status.error, 0, "bulk append rejected after truncate"⟩)
  else
    (truncated ++ df, ⟨Status.success, df.length, "Full load completed"⟩)

/-- State of the processed layer touched by `load_curated_to_processed`: the
target table, the staging table content (none when dropped/absent), and the
IncrementalTracker. -/
structure ProcState where
  target : List Row
  staging : Option (List Row)
  tracker : Tracker
deriving DecidableEq, Repr

/-- `incremental_load` (load_type.py lines 64-125): project the frame onto the
metadata target columns present in it, short-circuit on an empty frame
(pandas `df.empty` is also true when the projected frame has no columns),
drop/recreate and bulk-load the staging table in their own transactions, MERGE
staging into the target in a further transaction, then upsert the tracker.
`mergeFails` marks the backing store rejecting the MERGE statement; the merge
transaction rolls back alone, the staged rows persist, and the caught
exception becomes an error result without a tracker update. -/
def incremental_load (mergeFails : Bool) (now : Nat) (jobName : String)
    (metadata : List MetaRow) (dfCols : List String) (df : List Row)
    (stage : String) (keyColumns : List String) (st : ProcState) :
    ProcState × LoadOutcome :=
  let targetCols := (metadata.map (fun m => m.targetColumnName)).filter
    (fun c => dfCols.contains c)
  let df2 := df.map (projectCols targetCols)
  if df.isEmpty || targetCols.isEmpty then
    (st, ⟨Status.success, 0, "No rows to process."⟩)
  else
    let st1 := { st with staging := some df2 }
    match (if mergeFails then Except.error "MERGE statement rejected"
           else mergeUpsert keyColumns targetCols df2 st.target) with
    | Except.error e => (st1, ⟨Status.error, 0, e⟩)
    | Except.ok tgt =>
      ({ st1 with target := tgt, tracker := trackerUpsert jobName stage now st1.tracker },
       ⟨Status.success, df2.length, "Incremental MERGE completed"⟩)

-- ---------------------------------------------------------------------------
-- SCD engine (scripts/scd_type.py)
-- ---------------------------------------------------------------------------

/-- `scd1_merge` (scd_type.py lines 24-52).  The VALUES clause is built from
the incoming frame at lines 35-39, before line 41 deduplicates the frame; the
deduplicated frame is never used again, so the MERGE source is the full,
undeduplicated batch projected onto the target columns. -/
def scd1_merge (keyColumns targetCols : List String) (df : List Row)
    (target : List Row) : Except String (List Row) :=
  let source := df.map (projectCols targetCols)
  let _deduped := dropDupKeepLast (keyProj keyColumns) df
  mergeUpsert keyColumns targetCols source target

/-- `t.IsCurrent = 1` on the stored row. -/
def isCurrentRow (t : Row) : Bool := decide (getV t "IsCurrent" = some (Val.vint 1))

/-- SCD2 change detection over the non-key target columns (scd_type.py lines
80-85): `t <> s OR (t IS NULL AND s IS NOT NULL) OR (t IS NOT NULL AND s IS
NULL)`, which over nullable cells is exactly cell inequality. -/
def scd2Changed (keyCols targetCols : List String) (t s : Row) : Bool :=
  (targetCols.filter (fun c => !(keyCols.contains c))).any
    (fun c => decide (getV t c ≠ getV s c))

/-- Close a current stored row: `SET IsCurrent = 0, EndTime = GETDATE()`. -/
def histClose (now : Nat) (t : Row) : Row :=
  rowSet (rowSet t "EndTime" (some (Val.vint now))) "IsCurrent" (some (Val.vint 0))

/-- Close step of `scd2_merge` (scd_type.py lines 88-97): every stored row that
is current, joins some batch row on the key columns, and differs on a non-key
column gets IsCurrent = 0 and EndTime = now. -/
def scd2_close (keyCols targetCols : List String) (now : Nat) (batch : List Row)
    (st : List Row) : List Row :=
  st.map (fun t =>
    if isCurrentRow t &&
        batch.any (fun s => sqlKeyMatch keyCols t s && scd2Changed keyCols targetCols t s) then
      histClose now t
    else t)

/-- A freshly inserted SCD2 version: the batch row's target columns followed by
StartTime = now, EndTime = NULL, IsCurrent = 1. -/
def scd2NewRow (targetCols : List String) (now : Nat) (s : Row) : Row :=
  projectCols targetCols s ++
    [("StartTime", some (Val.vint now)), ("EndTime", none), ("IsCurrent", some (Val.vint 1))]

/-- The rows the SCD2 insert step emits for one batch row: the batch row is
LEFT-JOINed against the still-current stored rows on the key columns; with no
current match it inserts once (the `t.[key0] IS NULL` branch), and a matched
batch row inserts once per joined current row that differs. -/
def scd2InsertRows (keyCols targetCols : List String) (now : Nat) (st : List Row)
    (s : Row) : List Row :=
  let ms := st.filter (fun t => isCurrentRow t && sqlKeyMatch keyCols t s)
  if ms.isEmpty then [scd2NewRow targetCols now s]
  else (ms.filter (fun t => scd2Changed keyCols targetCols t s)).map
    (fun _ => scd2NewRow targetCols now s)

/-- Insert step of `scd2_merge` (scd_type.py lines 100-109): one
INSERT..SELECT over the batch joined to the (post-close) stored rows. -/
def scd2_insert (keyCols targetCols : List String) (now : Nat) (batch : List Row)
    (st : List Row) : List Row :=
  st ++ (batch.map (scd2InsertRows keyCols targetCols now st)).flatten

/-- `scd2_merge` (scd_type.py lines 56-115): build the VALUES source from the
frame's target columns, run the close UPDATE, then the insert (both inside one
transaction, the insert seeing the updated rows but not its own inserts). -/
def scd2_merge (keyCols targetCols : List String) (now : Nat) (df : List Row)
    (st : List Row) : List Row :=
  let batch := df.map (projectCols targetCols)
  scd2_insert keyCols targetCols now batch (scd2_close keyCols targetCols now batch st)

/-- Number of stored rows currently marked IsCurrent = 1 carrying the (fully
non-NULL) key value `k`. -/
def curCount (keyCols : List String) (k : List Val) (st : List Row) : Nat :=
  st.countP (fun t => isCurrentRow t && decide (keyProj keyCols t = k.map some))

/-- The SCD2 single-current invariant: for every key, at most one stored row is
marked current. -/
def singleCurrent (keyCols : List String) (st : List Row) : Prop :=
  ∀ k : List Val, curCount keyCols k st ≤ 1

/-- A batch suitable for SCD2 merging: every key column non-NULL in every row,
and at most one row per key value. -/
def goodBatch (keyCols : List String) (df : List Row) : Prop :=
  (∀ s ∈ df, ∀ c ∈ keyCols, (getV s c).isSome = true) ∧
    (df.map (keyProj keyCols)).Nodup

-- ---------------------------------------------------------------------------
-- Curated → Processed dispatch (scripts/curated_processed.py lines 57-112)
-- ---------------------------------------------------------------------------

/-- The load portion of `load_curated_to_processed` (curated_processed.py lines
57-112), after config/metadata fetch and table-existence handling; the batch
read from the curated source arrives as `df` with column list `dfCols`.  Line
58's `int(config.get("SCDType", 1))` raises TypeError when SCDType is NULL —
the Config row mapping holds the key with value None — and the raise is caught
at line 114 as an error result before any load runs.  The tracker update at
line 103 runs for every incremental variant whose call returned (also when
`incremental_load` returned an error result), but not when scd1_merge or
scd2_merge raised. -/
def load_curated_to_processed (mergeFails appendFails : Bool) (now : Nat)
    (jobName : String) (cfg : JobConfig) (metadata : List MetaRow)
    (dfCols : List String) (df : List Row) (st : ProcState) :
    ProcState × LoadOutcome :=
  match cfg.scdType with
  | none =>
    (st, ⟨Status.error, 0,
      "int() argument must be a string, a bytes-like object or a real number, not NoneType"⟩)
  | some scd =>
    if df.isEmpty then
      (st, ⟨Status.success, 0, "No rows to load into processed table."⟩)
    else if toLowerStr cfg.loadType = "full" then
      let r := full_load appendFails df st.target
      ({ st with target := r.1 }, r.2)
    else if toLowerStr cfg.loadType = "incremental" then
      let keyCols := pkColsOf metadata
      let targetCols := metadata.map (fun m => m.targetColumnName)
      let step : Except String (ProcState × LoadOutcome) :=
        if scd = 1 then
          match scd1_merge keyCols targetCols df st.target with
          | Except.error e => Except.error e
          | Except.ok tgt =>
            Except.ok ({ st with target := tgt },
              ⟨Status.success, df.length, "Incremental SCD1 merge completed"⟩)
        else if scd = 2 then
          Except.ok ({ st with target := scd2_merge keyCols targetCols now df st.target },
            ⟨Status.success, df.length, "Incremental SCD2 merge completed"⟩)
        else
          Except.ok (incremental_load mergeFails now jobName metadata dfCols df
            "curated_processed" keyCols st)
      match step with
      | Except.error e => (st, ⟨Status.error, 0, e⟩)
      | Except.ok r =>
        ({ r.1 with tracker := trackerUpsert jobName "curated_processed" now r.1.tracker }, r.2)
    else
      (st, ⟨Status.error, 0, "Unsupported LoadType: " ++ toLowerStr cfg.loadType⟩)

-- ---------------------------------------------------------------------------
-- Source → Raw incremental file selection (scripts/source_raw.py)
-- ---------------------------------------------------------------------------

/-- Decimal value of a digit list. -/
def digitsToNat (l : List Char) : Nat :=
  l.foldl (fun a c => a * 10 + (c.toNat - 48)) 0

/-- Match `DATE_PATTERN = (\d4)_(\d2)_(\d2)` at the head of a character list. -/
def matchDateAt : List Char → Option (Nat × Nat × Nat)
  | y1 :: y2 :: y3 :: y4 :: u1 :: m1 :: m2 :: u2 :: d1 :: d2 :: _ =>
    if y1.isDigit && y2.isDigit && y3.isDigit && y4.isDigit && u1 = '_' &&
        m1.isDigit && m2.isDigit && u2 = '_' && d1.isDigit && d2.isDigit then
      some (digitsToNat [y1, y2, y3, y4], digitsToNat [m1, m2], digitsToNat [d1, d2])
    else none
  | _ => none

/-- `DATE_PATTERN.search`: the leftmost match of the date pattern, scanning
positions left to right (source_raw.py line 15). -/
def dateSearch : List Char → Option (Nat × Nat × Nat)
  | [] => none
  | c :: rest =>
    match matchDateAt (c :: rest) with
    | some r => some r
    | none => dateSearch rest

/-- `os.path.basename`: the part after the last path separator. -/
def basename (s : String) : String := (splitOnChar '/' s).getLastD s

/-- Strict datetime comparison of (year, month, day) triples. -/
def dateLt (a b : Nat × Nat × Nat) : Bool :=
  a.1 < b.1 || (a.1 = b.1 && (a.2.1 < b.2.1 || (a.2.1 = b.2.1 && a.2.2 < b.2.2)))

/-- The `new_files` selection of the incremental branch of `load_source_to_raw`
(source_raw.py lines 133-140): keep a file exactly when the date pattern
matches somewhere in its basename and the extracted date is strictly after the
watermark; files without a match are passed over with no error and no record. -/
def selectNewFiles (wm : Nat × Nat × Nat) (files : List String) :
    List (String × (Nat × Nat × Nat)) :=
  files.filterMap (fun f =>
    match dateSearch (basename f).data with
    | some d => if dateLt wm d then some (f, d) else none
    | none => none)

/-- Stable insertion of a dated file into an ascending-by-date list. -/
def insertByDate (p : String × (Nat × Nat × Nat)) :
    List (String × (Nat × Nat × Nat)) → List (String × (Nat × Nat × Nat))
  | [] => [p]
  | q :: qs => if dateLt q.2 p.2 then q :: insertByDate p qs else p :: q :: qs

/-- `new_files.sort(key=lambda x: x[1])`: stable ascending sort by date. -/
def sortByDate : List (String × (Nat × Nat × Nat)) → List (String × (Nat × Nat × Nat))
  | [] => []
  | p :: ps => insertByDate p (sortByDate ps)

/-- The files an incremental Source→Raw run reads (source_raw.py lines
130-150): the watermark-filtered selection, sorted by embedded date. -/
def incrementalSourceFiles (wm : Nat × Nat × Nat) (files : List String) : List String :=
  (sortByDate (selectNewFiles wm files)).map (fun p => p.1)

-- ---------------------------------------------------------------------------
-- Concrete sample data used by counterexamples and witnesses
-- ---------------------------------------------------------------------------

/-- A two-column row with key column k and payload column v. -/
def sampleRow (i : Int) (v : Val) : Row := [("k", some (Val.vint i)), ("v", some v)]

/-- Metadata declaring k as integer primary key and v as plain integer. -/
def sampleMetaKV : List MetaRow :=
  [{ targetColumnName := "k", targetDataType := "INT", isPK := some 1 },
   { targetColumnName := "v", targetDataType := "INT" }]

/-- A reference lookup that always fails (no FK rule ever consults it in the
scenarios using it). -/
def failLookup : String → String → String → Except String (List Val) :=
  fun _ _ _ => Except.error "referenced table unreachable"

/-- A well-typed integer PK column. -/
def empIdMeta : MetaRow :=
  { targetColumnName := "EmpId", targetDataType := "INT", isPK := some 1 }

/-- A column of an unrecognized target data type. -/
def wageMeta : MetaRow :=
  { targetColumnName := "Wage", targetDataType := "MONEY" }

/-- Metadata with one well-typed PK column and one column of an unrecognized
target data type. -/
def sampleMetaBadType : List MetaRow := [empIdMeta, wageMeta]

-- ===========================================================================
-- Theorems
-- ===========================================================================

-- ------------------------- C2 (scd1 dedup is dead code) --------------------

/-- C2: scd1_merge is claimed to deduplicate the batch on the key columns
before merging, leaving exactly one stored row per key.  The code computes the
deduplication only after the VALUES clause is built and discards it, so a
batch with two rows for key 1 against an empty store inserts both rows: the
store ends with two rows for that key, while the dead-code deduplication of
the same batch has length one. -/
theorem c2_scd1_dedup_dead_code_eval :
    scd1_merge ["k"] ["k", "v"] [sampleRow 1 (Val.vstr "a"), sampleRow 1 (Val.vstr "b")] [] =
      Except.ok [sampleRow 1 (Val.vstr "a"), sampleRow 1 (Val.vstr "b")] ∧
    ([sampleRow 1 (Val.vstr "a"), sampleRow 1 (Val.vstr "b")].countP
        (fun r => decide (keyProj ["k"] r = [some (Val.vint 1)]))) = 2 ∧
    (dropDupKeepLast (keyProj ["k"])
        [sampleRow 1 (Val.vstr "a"), sampleRow 1 (Val.vstr "b")]).length = 1 := by
  refine ⟨rfl, by decide, by decide⟩

-- ------------------------- C3 (rule order) ---------------------------------

/-- C3 counterexample: the claim puts the no-negative-numeric filter after the
PK/not-null/FK rules.  On the batch [(k=1,v=5), (k=1,v=-3)] the code's order
(no-negative first, then PK keep-last dedup) keeps (1,5), while the claimed
order (PK dedup first keeps the later (1,-3), then the negative filter drops
it) returns the empty batch — the two orders are observably different. -/
theorem c3_rule_order_cex :
    rawToCuratedConstraintPhase failLookup sampleMetaKV ["k", "v"] ["k", "v"]
        [sampleRow 1 (Val.vint 5), sampleRow 1 (Val.vint (-3))] =
      [sampleRow 1 (Val.vint 5)] ∧
    specOrderConstraintPhase failLookup sampleMetaKV ["k", "v"] ["k", "v"]
        [sampleRow 1 (Val.vint 5), sampleRow 1 (Val.vint (-3))] = [] ∧
    rawToCuratedConstraintPhase failLookup sampleMetaKV ["k", "v"] ["k", "v"]
        [sampleRow 1 (Val.vint 5), sampleRow 1 (Val.vint (-3))] ≠
      specOrderConstraintPhase failLookup sampleMetaKV ["k", "v"] ["k", "v"]
        [sampleRow 1 (Val.vint 5), sampleRow 1 (Val.vint (-3))] := by
  refine ⟨rfl, by decide, by decide⟩

/-- C3 amended: the constraint phase of load_raw_to_curated applies the
no-negative-numeric filter first, and only then the PK, not-null and FK rules
(in that relative order). -/
theorem c3_no_negative_applied_first
    (rl : String → String → String → Except String (List Val))
    (md : List MetaRow) (dfCols numericCols : List String) (df : List Row) :
    rawToCuratedConstraintPhase rl md dfCols numericCols df =
      fkStep rl (fkRulesOf md)
        (notNullStep dfCols (notNullColsOf md)
          (pkStepF (pkColsOf md) (enforce_no_negative numericCols df))) := rfl

-- ------------------------- C4 counterexample (SCDType NULL) ----------------

/-- C4 counterexample: an incremental load into the processed layer whose
JobConfig has SCDType NULL does not reach the staged upsert — `int(None)`
raises before any branch and the stage returns an error result with the state
untouched. -/
theorem c4_null_scdtype_errors_cex :
    load_curated_to_processed false false 7 "JOB_X"
        { targetSchema := "processed", targetTable := "t",
          loadType := "incremental", scdType := none }
        sampleMetaKV ["k", "v"] [sampleRow 1 (Val.vint 5)] ⟨[], none, []⟩ =
      (⟨[], none, []⟩,
        ⟨Status.error, 0,
          "int() argument must be a string, a bytes-like object or a real number, not NoneType"⟩) :=
  rfl

-- ------------------------- C5 counterexample -------------------------------

/-- C5 counterexample: from the empty store (which trivially satisfies the
single-current invariant), one scd2_merge of a batch holding two rows for
key 1 leaves two stored rows with IsCurrent = 1 for that key: the insert step
left-joins each batch row against the pre-insert current rows, finds none, and
inserts both. -/
theorem c5_duplicate_key_batch_two_current_cex :
    singleCurrent ["k"] [] ∧
    curCount ["k"] [Val.vint 1]
        (scd2_merge ["k"] ["k", "v"] 5
          [sampleRow 1 (Val.vstr "a"), sampleRow 1 (Val.vstr "b")] []) = 2 ∧
    ¬ singleCurrent ["k"]
        (scd2_merge ["k"] ["k", "v"] 5
          [sampleRow 1 (Val.vstr "a"), sampleRow 1 (Val.vstr "b")] []) := by
  refine ⟨?_, ?_, ?_⟩
  · intro k
    simp [curCount, List.countP_nil]
  · decide
  · intro h
    have h1 := h [Val.vint 1]
    have h2 : curCount ["k"] [Val.vint 1]
        (scd2_merge ["k"] ["k", "v"] 5
          [sampleRow 1 (Val.vstr "a"), sampleRow 1 (Val.vstr "b")] []) = 2 := by decide
    omega

-- ------------------------- C6 counterexample -------------------------------

/-- C6 counterexample: a Full load whose bulk append fails after the truncate
does not leave the prior stored state untouched — the truncate has already
committed in its own transaction and the target ends empty, its prior row
lost, with the stage reporting an error. -/
theorem c6_full_load_truncate_not_rolled_back_cex :
    (full_load true [sampleRow 1 (Val.vint 5)] [sampleRow 2 (Val.vint 7)]).1 = [] ∧
    (full_load true [sampleRow 1 (Val.vint 5)] [sampleRow 2 (Val.vint 7)]).2.status =
      Status.error ∧
    (full_load true [sampleRow 1 (Val.vint 5)] [sampleRow 2 (Val.vint 7)]).1 ≠
      [sampleRow 2 (Val.vint 7)] := by
  refine ⟨rfl, rfl, by decide⟩

-- ------------------------- C10 (FK schema divergence) ----------------------

/-- C10: for an FK-flagged metadata row whose ReferenceTable is not
schema-qualified, DDL synthesis resolves the reference against schema dbo
while Raw→Curated FK enforcement queries schema curated (the default of a
ReferenceSchema key the Metadata table does not define), so the two paths name
different tables for the same metadata row. -/
theorem c10_fk_schema_divergence (m : MetaRow) (ref : String)
    (href : m.referenceTable = some ref) (hdot : (breakAtChar '.' ref.data).2 = none) :
    ddl_reference_target ref = ("dbo", ref) ∧
    enforcement_reference_target m = ("curated", ref) ∧
    ddl_reference_target ref ≠ enforcement_reference_target m := by
  have h1 : ddl_reference_target ref = ("dbo", ref) := by
    unfold ddl_reference_target
    cases hb : breakAtChar '.' ref.data with
    | mk pre rest =>
      rw [hb] at hdot
      have hr : rest = none := hdot
      subst hr
      rfl
  have h2 : enforcement_reference_target m = ("curated", ref) := by
    unfold enforcement_reference_target
    rw [href]
    rfl
  refine ⟨h1, h2, ?_⟩
  rw [h1, h2]
  intro hc
  have : "dbo" = "curated" := congrArg Prod.fst hc
  exact absurd this (by decide)

/-- C10 witness: the divergence at the concrete unqualified reference table
dim_customer. -/
theorem c10_fk_schema_witness :
    ({ targetColumnName := "CustId", targetDataType := "INT",
       referenceTable := some "dim_customer" : MetaRow }.referenceTable =
        some "dim_customer") ∧
    ((breakAtChar '.' "dim_customer".data).2 = none) ∧
    (ddl_reference_target "dim_customer" = ("dbo", "dim_customer") ∧
     enforcement_reference_target
        { targetColumnName := "CustId", targetDataType := "INT",
          referenceTable := some "dim_customer" } = ("curated", "dim_customer") ∧
     ddl_reference_target "dim_customer" ≠
       enforcement_reference_target
         { targetColumnName := "CustId", targetDataType := "INT",
           referenceTable := some "dim_customer" }) :=
  ⟨rfl, by decide,
    c10_fk_schema_divergence
      { targetColumnName := "CustId", targetDataType := "INT",
        referenceTable := some "dim_customer" }
      "dim_customer" rfl (by decide)⟩

-- ------------------------- C9 (incremental file selection) ----------------

/-- Stable date insertion preserves membership. -/
theorem mem_insertByDate (a p : String × (Nat × Nat × Nat))
    (l : List (String × (Nat × Nat × Nat))) :
    a ∈ insertByDate p l ↔ a = p ∨ a ∈ l := by
  induction l with
  | nil => simp [insertByDate]
  | cons q qs ih =>
    unfold insertByDate
    by_cases h : dateLt q.2 p.2 = true
    · rw [if_pos h]
      simp only [List.mem_cons, ih]
      tauto
    · rw [if_neg h]
      simp only [List.mem_cons]

/-- Sorting by date preserves membership. -/
theorem mem_sortByDate (a : String × (Nat × Nat × Nat))
    (l : List (String × (Nat × Nat × Nat))) :
    a ∈ sortByDate l ↔ a ∈ l := by
  induction l with
  | nil => simp [sortByDate]
  | cons p ps ih =>
    unfold sortByDate
    rw [mem_insertByDate]
    simp only [List.mem_cons, ih]

/-- Membership in the watermark selection, characterised. -/
theorem selectNewFiles_mem (wm : Nat × Nat × Nat) (files : List String)
    (p : String × (Nat × Nat × Nat)) :
    p ∈ selectNewFiles wm files ↔
      p.1 ∈ files ∧ dateSearch (basename p.1).data = some p.2 ∧ dateLt wm p.2 = true := by
  unfold selectNewFiles
  rw [List.mem_filterMap]
  constructor
  · rintro ⟨x, hx, hgx⟩
    cases hds : dateSearch (basename x).data with
    | none =>
      rw [hds] at hgx
      cases hgx
    | some d =>
      rw [hds] at hgx
      have hgx2 : (if dateLt wm d = true then some (x, d) else none) = some p := hgx
      by_cases hlt : dateLt wm d = true
      · rw [if_pos hlt] at hgx2
        have hpd : (x, d) = p := by
          injection hgx2
        subst hpd
        exact ⟨hx, hds, hlt⟩
      · rw [if_neg hlt] at hgx2
        cases hgx2
  · rintro ⟨hmem, hds, hlt⟩
    refine ⟨p.1, hmem, ?_⟩
    show (match dateSearch (basename p.1).data with
      | some d => if dateLt wm d = true then some (p.1, d) else none
      | none => none) = some p
    rw [hds]
    show (if dateLt wm p.2 = true then some (p.1, p.2) else none) = some p
    rw [if_pos hlt]

/-- C9: in an incremental Source→Raw load, a file is read exactly when its
basename carries a DATE_PATTERN match whose extracted date is strictly after
the watermark; in particular a file whose basename has no match is never read,
for every watermark, without raising — the selection is a total filter. -/
theorem c9_incremental_file_selection (wm : Nat × Nat × Nat) (files : List String)
    (f : String) :
    f ∈ incrementalSourceFiles wm files ↔
      f ∈ files ∧ ∃ d, dateSearch (basename f).data = some d ∧ dateLt wm d = true := by
  unfold incrementalSourceFiles
  rw [List.mem_map]
  constructor
  · rintro ⟨p, hp, hf⟩
    rw [mem_sortByDate, selectNewFiles_mem] at hp
    subst hf
    exact ⟨hp.1, p.2, hp.2.1, hp.2.2⟩
  · rintro ⟨hmem, d, hds, hlt⟩
    refine ⟨(f, d), ?_, rfl⟩
    rw [mem_sortByDate, selectNewFiles_mem]
    exact ⟨hmem, hds, hlt⟩

-- ------------------------- C6 amended --------------------------------------

/-- C6 amended: a staged incremental load whose MERGE is rejected leaves the
target's prior stored state untouched (the merge statement rolls back alone),
but a Full load whose bulk append fails after the truncate leaves the target
empty — the truncate committed in its own transaction and the prior rows are
lost, with the stage reporting an error. -/
theorem c6_atomicity_corrected (now : Nat) (job : String) (md : List MetaRow)
    (dfCols : List String) (df : List Row) (stage : String) (keyCols : List String)
    (st : ProcState) (df2 target : List Row) (h : df2 ≠ []) :
    (incremental_load true now job md dfCols df stage keyCols st).1.target = st.target ∧
    (full_load true df2 target).1 = [] ∧
    (full_load true df2 target).2.status = Status.error := by
  have he : df2.isEmpty = false := by
    cases df2 with
    | nil => exact absurd rfl h
    | cons a l => rfl
  refine ⟨?_, ?_, ?_⟩
  · unfold incremental_load
    dsimp only
    split
    · rfl
    · rfl
  · simp [full_load, he]
  · simp [full_load, he]

/-- C6 witness: the amended behaviour at a one-row batch over a one-row
target. -/
theorem c6_atomicity_witness :
    ([sampleRow 1 (Val.vint 5)] ≠ ([] : List Row)) ∧
    ((incremental_load true 0 "J" [] [] [] "s" [] ⟨[], none, []⟩).1.target =
        (⟨[], none, []⟩ : ProcState).target ∧
      (full_load true [sampleRow 1 (Val.vint 5)] [sampleRow 2 (Val.vint 7)]).1 = [] ∧
      (full_load true [sampleRow 1 (Val.vint 5)] [sampleRow 2 (Val.vint 7)]).2.status =
        Status.error) :=
  ⟨by decide,
    c6_atomicity_corrected 0 "J" [] [] [] "s" [] ⟨[], none, []⟩
      [sampleRow 1 (Val.vint 5)] [sampleRow 2 (Val.vint 7)] (by decide)⟩

-- ------------------------- C8 (Full load tracker frame) --------------------

/-- C8: a Full load through load_curated_to_processed never writes the
IncrementalTracker (the final tracker equals the initial one for every fault
pattern and SCDType), never reads it (target and result record are unchanged
when the run starts from any other tracker), and — when the batch is nonempty,
SCDType is non-NULL so the stage reaches the branch, and the append is not
rejected — truncates the target, bulk-appends the whole batch and returns its
row count. -/
theorem c8_full_load_tracker_frame (mf af : Bool) (now : Nat) (job tgtS tgtT : String)
    (scd : Option Int) (md : List MetaRow) (dfCols : List String) (df : List Row)
    (target : List Row) (stg : Option (List Row)) (tr tr2 : Tracker) :
    (load_curated_to_processed mf af now job ⟨tgtS, tgtT, "full", scd⟩ md dfCols df
        ⟨target, stg, tr⟩).1.tracker = tr ∧
    (load_curated_to_processed mf af now job ⟨tgtS, tgtT, "full", scd⟩ md dfCols df
        ⟨target, stg, tr⟩).1.target =
      (load_curated_to_processed mf af now job ⟨tgtS, tgtT, "full", scd⟩ md dfCols df
        ⟨target, stg, tr2⟩).1.target ∧
    (load_curated_to_processed mf af now job ⟨tgtS, tgtT, "full", scd⟩ md dfCols df
        ⟨target, stg, tr⟩).2 =
      (load_curated_to_processed mf af now job ⟨tgtS, tgtT, "full", scd⟩ md dfCols df
        ⟨target, stg, tr2⟩).2 ∧
    (∀ n, scd = some n → df ≠ [] → af = false →
      (load_curated_to_processed mf af now job ⟨tgtS, tgtT, "full", scd⟩ md dfCols df
          ⟨target, stg, tr⟩).1.target = df ∧
      (load_curated_to_processed mf af now job ⟨tgtS, tgtT, "full", scd⟩ md dfCols df
          ⟨target, stg, tr⟩).2 = ⟨Status.success, df.length, "Full load completed"⟩) := by
  cases scd with
  | none =>
    refine ⟨rfl, rfl, rfl, ?_⟩
    intro n hn
    cases hn
  | some m =>
    cases df with
    | nil =>
      refine ⟨rfl, rfl, rfl, ?_⟩
      intro n _ hne
      exact absurd rfl hne
    | cons d ds =>
      refine ⟨rfl, rfl, rfl, ?_⟩
      intro n _ _ haf
      subst haf
      exact ⟨rfl, rfl⟩

/-- C8 witness: a concrete Full load leaves the tracker row untouched and
replaces the target with the batch. -/
theorem c8_full_load_witness :
    (load_curated_to_processed false false 3 "J" ⟨"processed", "t", "full", some 1⟩ [] []
        [sampleRow 1 (Val.vint 5)]
        ⟨[], none, [(("J", "curated_processed"), 1)]⟩).1.tracker =
      [(("J", "curated_processed"), 1)] ∧
    (load_curated_to_processed false false 3 "J" ⟨"processed", "t", "full", some 1⟩ [] []
        [sampleRow 1 (Val.vint 5)]
        ⟨[], none, [(("J", "curated_processed"), 1)]⟩).1.target =
      [sampleRow 1 (Val.vint 5)] ∧
    (load_curated_to_processed false false 3 "J" ⟨"processed", "t", "full", some 1⟩ [] []
        [sampleRow 1 (Val.vint 5)]
        ⟨[], none, [(("J", "curated_processed"), 1)]⟩).2 =
      ⟨Status.success, 1, "Full load completed"⟩ :=
  have h := c8_full_load_tracker_frame false false 3 "J" "processed" "t" (some 1) [] []
    [sampleRow 1 (Val.vint 5)] [] none [(("J", "curated_processed"), 1)] []
  ⟨h.1, (h.2.2.2 1 rfl (by decide) rfl).1, (h.2.2.2 1 rfl (by decide) rfl).2⟩

-- ------------------------- C4 amended --------------------------------------

/-- The staged-upsert equation of incremental_load: a nonempty batch with a
nonempty projected column list is staged and merged, and the tracker is
upserted. -/
theorem incremental_load_ok (now : Nat) (job : String) (md : List MetaRow)
    (dfCols : List String) (df : List Row) (stage : String) (keyCols : List String)
    (st : ProcState) (tCols : List String) (tgt : List Row)
    (htc : tCols = (md.map (fun m => m.targetColumnName)).filter (fun c => dfCols.contains c))
    (hdf : df ≠ []) (htc0 : tCols ≠ [])
    (hm : mergeUpsert keyCols tCols (df.map (projectCols tCols)) st.target = Except.ok tgt) :
    incremental_load false now job md dfCols df stage keyCols st =
      ({ target := tgt, staging := some (df.map (projectCols tCols)),
         tracker := trackerUpsert job stage now st.tracker },
       ⟨Status.success, (df.map (projectCols tCols)).length, "Incremental MERGE completed"⟩) := by
  have hie : df.isEmpty = false := by
    cases df with
    | nil => exact absurd rfl hdf
    | cons a l => rfl
  have htie : tCols.isEmpty = false := by
    cases tCols with
    | nil => exact absurd rfl htc0
    | cons a l => rfl
  subst htc
  unfold incremental_load
  dsimp only
  rw [hie, htie, hm]
  rfl

/-- C4 amended: an incremental load into the processed layer with SCDType NULL
fails — `int(None)` raises and the stage returns an error with the state
untouched — while an incremental load whose SCDType is set to a value other
than 1 and 2 takes the staged-upsert path: the batch is staged, key-based
upserted into the target in one statement, the tracker is updated (by the load
and again by the dispatch), and the stage reports success with the batch's row
count. -/
theorem c4_staged_upsert_when_scdtype_other (af : Bool) (now : Nat)
    (job tgtS tgtT : String) (n : Int) (md : List MetaRow) (dfCols : List String)
    (df : List Row) (st : ProcState) (tCols : List String) (tgt : List Row)
    (h1 : n ≠ 1) (h2 : n ≠ 2) (hdf : df ≠ [])
    (htc : tCols = (md.map (fun m => m.targetColumnName)).filter (fun c => dfCols.contains c))
    (htc0 : tCols ≠ [])
    (hm : mergeUpsert (pkColsOf md) tCols (df.map (projectCols tCols)) st.target =
      Except.ok tgt) :
    (∀ cfg2 : JobConfig, cfg2.scdType = none →
      load_curated_to_processed false af now job cfg2 md dfCols df st =
        (st, ⟨Status.error, 0,
          "int() argument must be a string, a bytes-like object or a real number, not NoneType"⟩)) ∧
    load_curated_to_processed false af now job ⟨tgtS, tgtT, "incremental", some n⟩ md dfCols df st =
      ({ target := tgt, staging := some (df.map (projectCols tCols)),
         tracker := trackerUpsert job "curated_processed" now
           (trackerUpsert job "curated_processed" now st.tracker) },
       ⟨Status.success, (df.map (projectCols tCols)).length, "Incremental MERGE completed"⟩) := by
  have hie : df.isEmpty = false := by
    cases df with
    | nil => exact absurd rfl hdf
    | cons a l => rfl
  constructor
  · intro cfg2 hnull
    unfold load_curated_to_processed
    rw [hnull]
  · unfold load_curated_to_processed
    dsimp only
    rw [hie]
    rw [if_neg (by decide : ¬ ((false : Bool) = true))]
    rw [if_neg (by decide : ¬ (toLowerStr "incremental" = "full"))]
    rw [if_pos (by decide : toLowerStr "incremental" = "incremental")]
    rw [if_neg h1, if_neg h2]
    rw [incremental_load_ok now job md dfCols df "curated_processed" (pkColsOf md) st
      tCols tgt htc hdf htc0 hm]

/-- C4 witness: SCDType 0 stages and upserts the one-row batch, updating the
stored row for key 1 in place and stamping the tracker; the hypotheses hold at
this concrete input. -/
theorem c4_staged_upsert_witness :
    ((0 : Int) ≠ 1 ∧ (0 : Int) ≠ 2 ∧ [sampleRow 1 (Val.vint 5)] ≠ ([] : List Row) ∧
      ["k", "v"] = ((sampleMetaKV.map (fun m => m.targetColumnName)).filter
        (fun c => ["k", "v"].contains c)) ∧
      (["k", "v"] : List String) ≠ [] ∧
      mergeUpsert (pkColsOf sampleMetaKV) ["k", "v"]
          ([sampleRow 1 (Val.vint 5)].map (projectCols ["k", "v"]))
          [sampleRow 1 (Val.vint 9)] = Except.ok [sampleRow 1 (Val.vint 5)]) ∧
    load_curated_to_processed false false 7 "JOB_X"
        ⟨"processed", "t", "incremental", some 0⟩ sampleMetaKV ["k", "v"]
        [sampleRow 1 (Val.vint 5)] ⟨[sampleRow 1 (Val.vint 9)], none, []⟩ =
      ({ target := [sampleRow 1 (Val.vint 5)],
         staging := some ([sampleRow 1 (Val.vint 5)].map (projectCols ["k", "v"])),
         tracker := trackerUpsert "JOB_X" "curated_processed" 7
           (trackerUpsert "JOB_X" "curated_processed" 7 []) },
       ⟨Status.success, ([sampleRow 1 (Val.vint 5)].map (projectCols ["k", "v"])).length,
         "Incremental MERGE completed"⟩) :=
  ⟨⟨by decide, by decide, by decide, by decide, by decide, rfl⟩,
    (c4_staged_upsert_when_scdtype_other false 7 "JOB_X" "processed" "t" 0 sampleMetaKV
      ["k", "v"] [sampleRow 1 (Val.vint 5)] ⟨[sampleRow 1 (Val.vint 9)], none, []⟩
      ["k", "v"] [sampleRow 1 (Val.vint 5)]
      (by decide) (by decide) (by decide) (by decide) (by decide) rfl).2⟩

-- ------------------------- C7 (PK null-drop and keep-last) -----------------

/-- Keep-last deduplication only returns rows of its input. -/
theorem mem_of_mem_dropDupKeepLast {K : Type} [DecidableEq K] (key : Row → K)
    (l : List Row) (x : Row) (hx : x ∈ dropDupKeepLast key l) : x ∈ l := by
  induction l with
  | nil => cases hx
  | cons r rs ih =>
    unfold dropDupKeepLast at hx
    by_cases h : rs.any (fun r2 => decide (key r2 = key r)) = true
    · rw [if_pos h] at hx
      exact List.mem_cons_of_mem r (ih hx)
    · rw [if_neg h] at hx
      rcases List.mem_cons.mp hx with rfl | hx2
      · exact List.mem_cons_self x rs
      · exact List.mem_cons_of_mem r (ih hx2)

/-- The rows of a given key surviving keep-last deduplication are exactly the
last input occurrence of that key (none when the key does not occur). -/
theorem dropDupKeepLast_filter {K : Type} [DecidableEq K] (key : Row → K)
    (l : List Row) (k : K) :
    (dropDupKeepLast key l).filter (fun r => decide (key r = k)) =
      ((l.filter (fun r => decide (key r = k))).getLast?).toList := by
  induction l with
  | nil => rfl
  | cons r rs ih =>
    unfold dropDupKeepLast
    by_cases h : rs.any (fun r2 => decide (key r2 = key r)) = true
    · rw [if_pos h]
      by_cases hk : key r = k
      · have hne : rs.filter (fun r2 => decide (key r2 = k)) ≠ [] := by
          rw [List.any_eq_true] at h
          obtain ⟨r2, hr2, hkey⟩ := h
          rw [decide_eq_true_eq] at hkey
          refine List.ne_nil_of_mem (a := r2) (List.mem_filter.mpr ⟨hr2, ?_⟩)
          rw [decide_eq_true_eq, hkey, hk]
        rw [ih]
        have hfc : (r :: rs).filter (fun r2 => decide (key r2 = k)) =
            r :: rs.filter (fun r2 => decide (key r2 = k)) := by
          simp [List.filter_cons, hk]
        rw [hfc]
        cases hF : rs.filter (fun r2 => decide (key r2 = k)) with
        | nil => exact absurd hF hne
        | cons f fs =>
          rw [List.getLast?_cons_cons]
      · rw [ih]
        have hfc : (r :: rs).filter (fun r2 => decide (key r2 = k)) =
            rs.filter (fun r2 => decide (key r2 = k)) := by
          simp [List.filter_cons, hk]
        rw [hfc]
    · rw [if_neg h]
      have hnone : ∀ x ∈ rs, ¬ (key x = key r) := by
        intro x hxm hxk
        have h2 : rs.any (fun r2 => decide (key r2 = key r)) = true :=
          List.any_eq_true.mpr ⟨x, hxm, decide_eq_true hxk⟩
        exact h h2
      by_cases hk : key r = k
      · have hrs : rs.filter (fun r2 => decide (key r2 = k)) = [] := by
          rw [List.filter_eq_nil_iff]
          intro x hxm
          rw [decide_eq_true_eq]
          intro hxk
          exact hnone x hxm (by rw [hxk, hk])
        have hdd : (dropDupKeepLast key rs).filter (fun r2 => decide (key r2 = k)) = [] := by
          rw [List.filter_eq_nil_iff]
          intro x hxm
          rw [decide_eq_true_eq]
          intro hxk
          exact hnone x (mem_of_mem_dropDupKeepLast key rs x hxm) (by rw [hxk, hk])
        have hlhs : (r :: dropDupKeepLast key rs).filter (fun r2 => decide (key r2 = k)) =
            [r] := by
          simp [List.filter_cons, hk, hdd]
        have hrhs : (r :: rs).filter (fun r2 => decide (key r2 = k)) = [r] := by
          simp [List.filter_cons, hk, hrs]
        rw [hlhs, hrhs]
        rfl
      · have hfcl : (r :: dropDupKeepLast key rs).filter (fun r2 => decide (key r2 = k)) =
            (dropDupKeepLast key rs).filter (fun r2 => decide (key r2 = k)) := by
          simp [List.filter_cons, hk]
        have hfcr : (r :: rs).filter (fun r2 => decide (key r2 = k)) =
            rs.filter (fun r2 => decide (key r2 = k)) := by
          simp [List.filter_cons, hk]
        rw [hfcl, hfcr, ih]

/-- C7: with a declared primary key and no not-null or FK rules in play, the
constraint enforcer (1) outputs only rows whose PK columns are all non-NULL —
every null-PK row is dropped — and (2) for every key value, its output
contains exactly the last source-order occurrence among the non-null-PK rows
of that key: one row per key present, never more. -/
theorem c7_pk_null_drop_and_keep_last
    (rl : String → String → String → Except String (List Val))
    (metadata : List MetaRow) (dfCols : List String) (df : List Row)
    (hpk : pkColsOf metadata ≠ [])
    (hnn : notNullColsOf metadata = [])
    (hfk : fkRulesOf metadata = []) :
    (∀ r ∈ enforce_pk_fk rl metadata dfCols df, pkValid (pkColsOf metadata) r = true) ∧
    (∀ k : List Cell,
      (enforce_pk_fk rl metadata dfCols df).filter
          (fun r => decide (keyProj (pkColsOf metadata) r = k)) =
        (((df.filter (pkValid (pkColsOf metadata))).filter
            (fun r => decide (keyProj (pkColsOf metadata) r = k))).getLast?).toList) := by
  have hpke : (pkColsOf metadata).isEmpty = false := by
    cases hc : pkColsOf metadata with
    | nil => exact absurd hc hpk
    | cons a l => rfl
  have henf : enforce_pk_fk rl metadata dfCols df =
      dropDupKeepLast (keyProj (pkColsOf metadata)) (df.filter (pkValid (pkColsOf metadata))) := by
    unfold enforce_pk_fk
    rw [hnn, hfk]
    show pkStepF (pkColsOf metadata) df = _
    unfold pkStepF
    rw [hpke]
    rfl
  constructor
  · intro r hr
    rw [henf] at hr
    exact (List.mem_filter.mp
      (mem_of_mem_dropDupKeepLast (keyProj (pkColsOf metadata)) _ r hr)).2
  · intro k
    rw [henf, dropDupKeepLast_filter]

/-- C7 witness: the spec's P1 example — rows (1,a) and (1,b) sharing PK value 1
reduce to the single last occurrence (1,b). -/
theorem c7_pk_witness :
    (pkColsOf sampleMetaKV ≠ [] ∧ notNullColsOf sampleMetaKV = [] ∧
      fkRulesOf sampleMetaKV = []) ∧
    ((∀ r ∈ enforce_pk_fk failLookup sampleMetaKV ["k", "v"]
        [sampleRow 1 (Val.vstr "a"), sampleRow 1 (Val.vstr "b")],
        pkValid (pkColsOf sampleMetaKV) r = true) ∧
     (∀ k : List Cell,
      (enforce_pk_fk failLookup sampleMetaKV ["k", "v"]
          [sampleRow 1 (Val.vstr "a"), sampleRow 1 (Val.vstr "b")]).filter
          (fun r => decide (keyProj (pkColsOf sampleMetaKV) r = k)) =
        ((([sampleRow 1 (Val.vstr "a"), sampleRow 1 (Val.vstr "b")].filter
              (pkValid (pkColsOf sampleMetaKV))).filter
            (fun r => decide (keyProj (pkColsOf sampleMetaKV) r = k))).getLast?).toList)) ∧
    enforce_pk_fk failLookup sampleMetaKV ["k", "v"]
        [sampleRow 1 (Val.vstr "a"), sampleRow 1 (Val.vstr "b")] =
      [sampleRow 1 (Val.vstr "b")] :=
  ⟨⟨by decide, by decide, by decide⟩,
    c7_pk_null_drop_and_keep_last failLookup sampleMetaKV ["k", "v"]
      [sampleRow 1 (Val.vstr "a"), sampleRow 1 (Val.vstr "b")]
      (by decide) (by decide) (by decide),
    by decide⟩

-- ------------------------- C1 (unsupported type) ---------------------------

/-- Non-membership gives a false `contains`. -/
theorem contains_eq_false_of_not_mem {α : Type} [BEq α] [LawfulBEq α] (l : List α) (a : α)
    (h : a ∉ l) : l.contains a = false := by
  rw [Bool.eq_false_iff]
  intro hc
  exact h (List.mem_of_elem_eq_true hc)

/-- The per-column loop never loses an accumulated error. -/
theorem buildColumnsGo_errors_mono (schema table : String) (rows : List MetaRow)
    (acc : ColAcc) (e : String) (he : e ∈ acc.errors) :
    e ∈ (buildColumnsGo schema table rows acc).errors := by
  induction rows generalizing acc with
  | nil => exact he
  | cons m rest ih =>
    unfold buildColumnsGo
    by_cases h : acc.seen.contains (m.targetColumnName, m.targetDataType, m.length) = true
    · rw [if_pos h]
      exact ih _ (List.mem_append_left _ he)
    · rw [if_neg h]
      cases hb : build_column_def m schema with
      | ok d => exact ih _ he
      | error e2 => exact ih _ (List.mem_append_left _ he)

/-- A metadata row whose definition fails, reached with its (name, type,
length) key unseen, leaves its error message in the loop's accumulated
errors. -/
theorem buildColumnsGo_failed_def_mem (schema table : String) (post : List MetaRow)
    (bad : MetaRow) (msg : String)
    (hbuild : build_column_def bad schema = Except.error msg) :
    ∀ (pre : List MetaRow) (acc : ColAcc),
      (bad.targetColumnName, bad.targetDataType, bad.length) ∉ acc.seen →
      (bad.targetColumnName, bad.targetDataType, bad.length) ∉
        pre.map (fun m => (m.targetColumnName, m.targetDataType, m.length)) →
      msg ∈ (buildColumnsGo schema table (pre ++ bad :: post) acc).errors := by
  intro pre
  induction pre with
  | nil =>
    intro acc hseen _
    show msg ∈ (buildColumnsGo schema table (bad :: post) acc).errors
    unfold buildColumnsGo
    rw [if_neg (by
      rw [contains_eq_false_of_not_mem _ _ hseen]
      exact Bool.false_ne_true)]
    rw [hbuild]
    exact buildColumnsGo_errors_mono schema table post _ msg
      (List.mem_append_right _ (List.mem_singleton.mpr rfl))
  | cons m pre2 ih =>
    intro acc hseen hpre
    have hkm : (bad.targetColumnName, bad.targetDataType, bad.length) ≠
        (m.targetColumnName, m.targetDataType, m.length) := by
      intro he
      exact hpre (he ▸ List.mem_cons_self _ _)
    have hpre2 : (bad.targetColumnName, bad.targetDataType, bad.length) ∉
        pre2.map (fun m2 => (m2.targetColumnName, m2.targetDataType, m2.length)) := by
      intro he
      exact hpre (List.mem_cons_of_mem _ he)
    show msg ∈ (buildColumnsGo schema table (m :: (pre2 ++ bad :: post)) acc).errors
    unfold buildColumnsGo
    by_cases h : acc.seen.contains (m.targetColumnName, m.targetDataType, m.length) = true
    · rw [if_pos h]
      exact ih _ hseen hpre2
    · rw [if_neg h]
      have hseen2 : (bad.targetColumnName, bad.targetDataType, bad.length) ∉
          acc.seen ++ [(m.targetColumnName, m.targetDataType, m.length)] := by
        intro he
        rcases List.mem_append.mp he with h2 | h2
        · exact hseen h2
        · exact hkm (List.mem_singleton.mp h2)
      cases hb : build_column_def m schema with
      | ok d => exact ih _ hseen2 hpre2
      | error e2 => exact ih _ hseen2 hpre2

/-- Every column definition the loop emits stems from a metadata row whose
`_build_column_def` succeeded with exactly that definition. -/
theorem buildColumnsGo_colDefs_from (schema table : String) :
    ∀ (rows : List MetaRow) (acc : ColAcc) (d : String),
      d ∈ (buildColumnsGo schema table rows acc).colDefs →
      d ∈ acc.colDefs ∨ ∃ m ∈ rows, build_column_def m schema = Except.ok d := by
  intro rows
  induction rows with
  | nil =>
    intro acc d hd
    exact Or.inl hd
  | cons m rest ih =>
    intro acc d hd
    unfold buildColumnsGo at hd
    by_cases h : acc.seen.contains (m.targetColumnName, m.targetDataType, m.length) = true
    · rw [if_pos h] at hd
      rcases ih _ d hd with h1 | ⟨m2, hm2, hb⟩
      · exact Or.inl h1
      · exact Or.inr ⟨m2, List.mem_cons_of_mem m hm2, hb⟩
    · rw [if_neg h] at hd
      cases hb : build_column_def m schema with
      | ok d2 =>
        rw [hb] at hd
        rcases ih _ d hd with h1 | ⟨m2, hm2, hb2⟩
        · rcases List.mem_append.mp h1 with h2 | h2
          · exact Or.inl h2
          · have hdd : d = d2 := List.mem_singleton.mp h2
            exact Or.inr ⟨m, List.mem_cons_self m rest, by rw [hdd]; exact hb⟩
        · exact Or.inr ⟨m2, List.mem_cons_of_mem m hm2, hb2⟩
      | error e =>
        rw [hb] at hd
        rcases ih _ d hd with h1 | ⟨m2, hm2, hb2⟩
        · exact Or.inl h1
        · exact Or.inr ⟨m2, List.mem_cons_of_mem m hm2, hb2⟩

/-- An unrecognized target data type outside the raw layer makes
`_build_column_def` fail with the unsupported-type message (which names the
type but not the column). -/
theorem build_column_def_unsupported (m : MetaRow) (schema : String)
    (hraw : toLowerStr schema ≠ "raw")
    (hallow : ALLOWED_TYPES.contains (toUpperStr m.targetDataType) = false) :
    build_column_def m schema =
      Except.error ("Unsupported data type: " ++ toUpperStr m.targetDataType) := by
  unfold build_column_def
  dsimp only
  rw [if_neg hraw, if_pos hallow]

/-- C1 counterexample: a curated-layer job with one valid PK column and one
column of unrecognized type MONEY is reported failed with an error naming the
type — but a table IS created for the job: the partial table missing the
offending column. -/
theorem c1_partial_table_created_cex :
    (create_target_tables (fun _ _ => false) (fun _ _ => false) "JOB_EMP_CURATED"
        ⟨"curated", "emp", "full", some 1⟩ sampleMetaBadType).status = Status.error ∧
    (create_target_tables (fun _ _ => false) (fun _ _ => false) "JOB_EMP_CURATED"
        ⟨"curated", "emp", "full", some 1⟩ sampleMetaBadType).errors =
      ["Unsupported data type: MONEY"] ∧
    (create_target_tables (fun _ _ => false) (fun _ _ => false) "JOB_EMP_CURATED"
        ⟨"curated", "emp", "full", some 1⟩ sampleMetaBadType).createdTable =
      some ("curated", "curated_emp", ["[EmpId] INT PRIMARY KEY NOT NULL"]) := by
  refine ⟨rfl, rfl, rfl⟩

/-- C1 amended: for a curated- or processed-layer job whose metadata holds a
column of unrecognized TargetDataType (with the job otherwise well-formed:
SCDType non-NULL, derivable table name, table absent, at most one PK, the bad
column not shadowed by an identical earlier key), synthesis records the
unsupported-type error — naming the type, not the column — and the job is
reported failed; but whenever any other column definition synthesizes, a table
IS created, containing exactly definitions stemming from the other metadata
rows, FK clauses, and — on the processed SCD2 path — the synthesized RowID
identity and history columns: the partial table missing the offending
column. -/
theorem c1_unsupported_type_job_fails_partial_table
    (tablefn reffn : String → String → Bool) (jobName part : String)
    (cfg : JobConfig) (scd : Int) (pre post : List MetaRow) (bad : MetaRow)
    (hscd : cfg.scdType = some scd)
    (hschema : toLowerStr cfg.targetSchema = "curated" ∨
      toLowerStr cfg.targetSchema = "processed")
    (hpart : (splitOnChar '_' jobName).get? 1 = some part)
    (hex : tablefn cfg.targetSchema
      (toLowerStr cfg.targetSchema ++ "_" ++ toLowerStr part) = false)
    (hpk : validatePrimaryKeysOk cfg.targetSchema (pre ++ bad :: post) = true)
    (hallow : ALLOWED_TYPES.contains (toUpperStr bad.targetDataType) = false)
    (hkey : (bad.targetColumnName, bad.targetDataType, bad.length) ∉
      pre.map (fun m => (m.targetColumnName, m.targetDataType, m.length)))
    (hdefs : (buildColumnsGo cfg.targetSchema cfg.targetTable (pre ++ bad :: post)
      ⟨[], [], []⟩).colDefs ≠ []) :
    (create_target_tables tablefn reffn jobName cfg (pre ++ bad :: post)).status =
      Status.error ∧
    ("Unsupported data type: " ++ toUpperStr bad.targetDataType) ∈
      (create_target_tables tablefn reffn jobName cfg (pre ++ bad :: post)).errors ∧
    (∃ defs,
      (create_target_tables tablefn reffn jobName cfg (pre ++ bad :: post)).createdTable =
        some (cfg.targetSchema, toLowerStr cfg.targetSchema ++ "_" ++ toLowerStr part,
          defs) ∧
      defs ≠ [] ∧
      ∀ d ∈ defs,
        (∃ m, (m ∈ pre ∨ m ∈ post) ∧ build_column_def m cfg.targetSchema = Except.ok d) ∨
        d ∈ foreign_key_clauses reffn (pre ++ bad :: post) ∨
        d ∈ "[RowID] INT IDENTITY(1,1) PRIMARY KEY" :: scd2HistoryDefs) := by
  have hraw : toLowerStr cfg.targetSchema ≠ "raw" := by
    rcases hschema with h | h <;> rw [h] <;> decide
  have hcontains : (["raw", "curated", "processed"].contains
      (toLowerStr cfg.targetSchema)) = true := by
    rcases hschema with h | h <;> rw [h] <;> decide
  have hbuild : build_column_def bad cfg.targetSchema =
      Except.error ("Unsupported data type: " ++ toUpperStr bad.targetDataType) :=
    build_column_def_unsupported bad cfg.targetSchema hraw hallow
  have hmsg : ("Unsupported data type: " ++ toUpperStr bad.targetDataType) ∈
      (buildColumnsGo cfg.targetSchema cfg.targetTable (pre ++ bad :: post)
        ⟨[], [], []⟩).errors :=
    buildColumnsGo_failed_def_mem cfg.targetSchema cfg.targetTable post bad _ hbuild pre
      ⟨[], [], []⟩ (by intro h; cases h) hkey
  have herr : (buildColumnsGo cfg.targetSchema cfg.targetTable (pre ++ bad :: post)
      ⟨[], [], []⟩).errors ≠ [] := List.ne_nil_of_mem hmsg
  have hie : (pre ++ bad :: post).isEmpty = false := by
    cases pre with
    | nil => rfl
    | cons a l => rfl
  have herrie : (buildColumnsGo cfg.targetSchema cfg.targetTable (pre ++ bad :: post)
      ⟨[], [], []⟩).errors.isEmpty = false := by
    cases hc : (buildColumnsGo cfg.targetSchema cfg.targetTable (pre ++ bad :: post)
        ⟨[], [], []⟩).errors with
    | nil => exact absurd hc herr
    | cons a l => rfl
  have hdefsie : ((if toLowerStr cfg.targetSchema = "processed" ∧ scd = 2 then
      ["[RowID] INT IDENTITY(1,1) PRIMARY KEY"] ++
        (buildColumnsGo cfg.targetSchema cfg.targetTable (pre ++ bad :: post)
          ⟨[], [], []⟩).colDefs ++ scd2HistoryDefs
      else (buildColumnsGo cfg.targetSchema cfg.targetTable (pre ++ bad :: post)
        ⟨[], [], []⟩).colDefs) ++
        foreign_key_clauses reffn (pre ++ bad :: post)).isEmpty = false := by
    by_cases hps : toLowerStr cfg.targetSchema = "processed" ∧ scd = 2
    · rw [if_pos hps]
      rfl
    · rw [if_neg hps]
      cases hc : (buildColumnsGo cfg.targetSchema cfg.targetTable (pre ++ bad :: post)
          ⟨[], [], []⟩).colDefs with
      | nil => exact absurd hc hdefs
      | cons a l => rfl
  have hres : create_target_tables tablefn reffn jobName cfg (pre ++ bad :: post) =
      { status := Status.error,
        errors := (buildColumnsGo cfg.targetSchema cfg.targetTable (pre ++ bad :: post)
          ⟨[], [], []⟩).errors,
        createdTable := some (cfg.targetSchema,
          toLowerStr cfg.targetSchema ++ "_" ++ toLowerStr part,
          (if toLowerStr cfg.targetSchema = "processed" ∧ scd = 2 then
            ["[RowID] INT IDENTITY(1,1) PRIMARY KEY"] ++
              (buildColumnsGo cfg.targetSchema cfg.targetTable (pre ++ bad :: post)
                ⟨[], [], []⟩).colDefs ++ scd2HistoryDefs
          else (buildColumnsGo cfg.targetSchema cfg.targetTable (pre ++ bad :: post)
            ⟨[], [], []⟩).colDefs) ++
            foreign_key_clauses reffn (pre ++ bad :: post)) } := by
    unfold create_target_tables
    rw [hie]
    rw [if_neg (by decide : ¬ ((false : Bool) = true))]
    rw [hscd]
    dsimp only
    rw [if_pos hcontains]
    rw [hpart]
    dsimp only [Option.map_some']
    rw [hex]
    rw [if_neg (by decide : ¬ ((false : Bool) = true))]
    rw [hpk]
    rw [if_neg (by decide : ¬ ((true : Bool) = false))]
    rw [hdefsie]
    rw [if_neg (by decide : ¬ ((false : Bool) = true))]
    rw [herrie]
    rw [if_neg (by decide : ¬ ((false : Bool) = true))]
  have hprov : ∀ d, d ∈ (buildColumnsGo cfg.targetSchema cfg.targetTable
      (pre ++ bad :: post) ⟨[], [], []⟩).colDefs →
      ∃ m, (m ∈ pre ∨ m ∈ post) ∧ build_column_def m cfg.targetSchema = Except.ok d := by
    intro d h1
    rcases buildColumnsGo_colDefs_from cfg.targetSchema cfg.targetTable
      (pre ++ bad :: post) ⟨[], [], []⟩ d h1 with h2 | ⟨m, hm, hb⟩
    · cases h2
    · rcases List.mem_append.mp hm with h3 | h3
      · exact ⟨m, Or.inl h3, hb⟩
      · rcases List.mem_cons.mp h3 with rfl | h4
        · rw [hbuild] at hb
          cases hb
        · exact ⟨m, Or.inr h4, hb⟩
  refine ⟨by rw [hres], by rw [hres]; exact hmsg, ?_⟩
  refine ⟨(if toLowerStr cfg.targetSchema = "processed" ∧ scd = 2 then
      ["[RowID] INT IDENTITY(1,1) PRIMARY KEY"] ++
        (buildColumnsGo cfg.targetSchema cfg.targetTable (pre ++ bad :: post)
          ⟨[], [], []⟩).colDefs ++ scd2HistoryDefs
    else (buildColumnsGo cfg.targetSchema cfg.targetTable (pre ++ bad :: post)
      ⟨[], [], []⟩).colDefs) ++ foreign_key_clauses reffn (pre ++ bad :: post),
    by rw [hres], ?_, ?_⟩
  · intro hnil
    by_cases hps : toLowerStr cfg.targetSchema = "processed" ∧ scd = 2
    · rw [if_pos hps] at hnil
      exact List.cons_ne_nil _ _ hnil
    · rw [if_neg hps] at hnil
      exact hdefs (List.append_eq_nil.mp hnil).1
  · intro d hd
    rcases List.mem_append.mp hd with h1 | h1
    · by_cases hps : toLowerStr cfg.targetSchema = "processed" ∧ scd = 2
      · rw [if_pos hps] at h1
        rcases List.mem_append.mp h1 with h2 | h2
        · rcases List.mem_append.mp h2 with h3 | h3
          · exact Or.inr (Or.inr (List.mem_cons.mpr
              (Or.inl (List.mem_singleton.mp h3))))
          · exact Or.inl (hprov d h3)
        · exact Or.inr (Or.inr (List.mem_cons_of_mem _ h2))
      · rw [if_neg hps] at h1
        exact Or.inl (hprov d h1)
    · exact Or.inr (Or.inl h1)

/-- C1 witness: the amended behaviour at the concrete processed-layer SCD2 job
JOB_EMP_PROCESSED with a MONEY-typed Wage column — the created partial table
carries the synthesized RowID and history columns, the surviving EmpId
definition, and no Wage column; the curated-layer case is exercised concretely
by the counterexample. -/
theorem c1_unsupported_type_witness :
    (ALLOWED_TYPES.contains (toUpperStr "MONEY") = false ∧
      ((splitOnChar '_' "JOB_EMP_PROCESSED").get? 1 = some "EMP") ∧
      (toLowerStr "processed" = "curated" ∨ toLowerStr "processed" = "processed")) ∧
    ((create_target_tables (fun _ _ => false) (fun _ _ => false) "JOB_EMP_PROCESSED"
        ⟨"processed", "emp", "incremental", some 2⟩
        ([empIdMeta] ++ wageMeta :: [])).status = Status.error ∧
     ("Unsupported data type: " ++ toUpperStr wageMeta.targetDataType) ∈
      (create_target_tables (fun _ _ => false) (fun _ _ => false) "JOB_EMP_PROCESSED"
        ⟨"processed", "emp", "incremental", some 2⟩
        ([empIdMeta] ++ wageMeta :: [])).errors ∧
     (∃ defs,
      (create_target_tables (fun _ _ => false) (fun _ _ => false) "JOB_EMP_PROCESSED"
        ⟨"processed", "emp", "incremental", some 2⟩
        ([empIdMeta] ++ wageMeta :: [])).createdTable =
        some ("processed", toLowerStr "processed" ++ "_" ++ toLowerStr "EMP", defs) ∧
      defs ≠ [] ∧
      ∀ d ∈ defs,
        (∃ m, (m ∈ [empIdMeta] ∨ m ∈ ([] : List MetaRow)) ∧
            build_column_def m "processed" = Except.ok d) ∨
        d ∈ foreign_key_clauses (fun _ _ => false) ([empIdMeta] ++ wageMeta :: []) ∨
        d ∈ "[RowID] INT IDENTITY(1,1) PRIMARY KEY" :: scd2HistoryDefs)) :=
  ⟨⟨by decide, by decide, Or.inr (by decide)⟩,
    c1_unsupported_type_job_fails_partial_table (fun _ _ => false) (fun _ _ => false)
      "JOB_EMP_PROCESSED" "EMP" ⟨"processed", "emp", "incremental", some 2⟩ 2
      [empIdMeta] [] wageMeta
      rfl (Or.inr (by decide)) (by decide) rfl (by decide) (by decide) (by decide)
      (by decide)⟩

-- ------------------------- C5 (SCD2 single-current) ------------------------

/-- Association lookup at a matching head entry. -/
theorem lookup_cons_self (k : String) (v : Cell) (es : Row) (a : String) (h : a = k) :
    List.lookup a ((k, v) :: es) = some v := by
  subst h
  simp [List.lookup]

/-- Association lookup skips a non-matching head entry. -/
theorem lookup_cons_ne (k : String) (v : Cell) (es : Row) (a : String) (h : ¬ a = k) :
    List.lookup a ((k, v) :: es) = List.lookup a es := by
  have hb : (a == k) = false := beq_eq_false_iff_ne.mpr h
  simp [List.lookup, hb]

/-- Reading a cons row: the head column if names agree, else the tail. -/
theorem getV_cons (pk : String) (pv : Cell) (ps : Row) (c : String) :
    getV ((pk, pv) :: ps) c = if pk = c then pv else getV ps c := by
  by_cases h : pk = c
  · rw [if_pos h]
    unfold getV
    rw [lookup_cons_self pk pv ps c h.symm]
    rfl
  · rw [if_neg h]
    unfold getV
    rw [lookup_cons_ne pk pv ps c (fun he => h he.symm)]

/-- rowSet on a cons row. -/
theorem rowSet_cons (pk : String) (pv : Cell) (ps : Row) (c : String) (v : Cell) :
    rowSet ((pk, pv) :: ps) c v =
      (if pk = c then (pk, v) else (pk, pv)) :: rowSet ps c v := by
  by_cases h : pk = c
  · simp [rowSet, h]
  · simp [rowSet, h]

/-- Setting a column present in the row makes reading it return the new value. -/
theorem rowSet_getV_present (r : Row) (c : String) (v : Cell)
    (h : (List.lookup c r).isSome = true) : getV (rowSet r c v) c = v := by
  induction r with
  | nil => cases h
  | cons p ps ih =>
    obtain ⟨pk, pv⟩ := p
    rw [rowSet_cons]
    by_cases hp : pk = c
    · rw [if_pos hp, getV_cons, if_pos hp]
    · rw [if_neg hp, getV_cons, if_neg hp]
      apply ih
      rw [lookup_cons_ne pk pv ps c (fun he => hp he.symm)] at h
      exact h

/-- rowSet never adds or removes columns. -/
theorem lookup_rowSet_isSome (r : Row) (c c2 : String) (v : Cell) :
    (List.lookup c2 (rowSet r c v)).isSome = (List.lookup c2 r).isSome := by
  induction r with
  | nil => rfl
  | cons p ps ih =>
    obtain ⟨pk, pv⟩ := p
    rw [rowSet_cons]
    by_cases h2 : c2 = pk
    · by_cases hp : pk = c
      · rw [if_pos hp, lookup_cons_self pk v (rowSet ps c v) c2 h2,
          lookup_cons_self pk pv ps c2 h2]
        rfl
      · rw [if_neg hp, lookup_cons_self pk pv (rowSet ps c v) c2 h2,
          lookup_cons_self pk pv ps c2 h2]
    · by_cases hp : pk = c
      · rw [if_pos hp, lookup_cons_ne pk v (rowSet ps c v) c2 h2,
          lookup_cons_ne pk pv ps c2 h2]
        exact ih
      · rw [if_neg hp, lookup_cons_ne pk pv (rowSet ps c v) c2 h2,
          lookup_cons_ne pk pv ps c2 h2]
        exact ih

/-- Closing a current row clears its current flag. -/
theorem histClose_not_current (now : Nat) (t : Row) (h : isCurrentRow t = true) :
    isCurrentRow (histClose now t) = false := by
  unfold isCurrentRow at h ⊢
  rw [decide_eq_true_eq] at h
  have hpres : (List.lookup "IsCurrent" t).isSome = true := by
    unfold getV at h
    cases hl : List.lookup "IsCurrent" t with
    | none => rw [hl] at h; cases h
    | some x => rfl
  have hpres2 : (List.lookup "IsCurrent"
      (rowSet t "EndTime" (some (Val.vint now)))).isSome = true := by
    rw [lookup_rowSet_isSome]
    exact hpres
  unfold histClose
  rw [rowSet_getV_present _ _ _ hpres2]
  decide

/-- The close step never increases the number of current rows of any key. -/
theorem curCount_close_le (keyCols targetCols : List String) (now : Nat)
    (batch : List Row) (st : List Row) (k : List Val) :
    curCount keyCols k (scd2_close keyCols targetCols now batch st) ≤
      curCount keyCols k st := by
  unfold curCount scd2_close
  rw [List.countP_map]
  apply List.countP_mono_left
  intro t _ hp
  simp only [Function.comp] at hp
  split at hp
  · rename_i hc
    exfalso
    rw [Bool.and_eq_true] at hc hp
    have hncur := histClose_not_current now t hc.1
    rw [hp.1] at hncur
    cases hncur
  · exact hp

/-- A row still current after the close step is an unchanged stored row that
differs from no matching batch row. -/
theorem mem_close_current (keyCols targetCols : List String) (now : Nat)
    (batch st : List Row) (t : Row)
    (ht : t ∈ scd2_close keyCols targetCols now batch st)
    (hcur : isCurrentRow t = true) :
    t ∈ st ∧ ∀ s ∈ batch, sqlKeyMatch keyCols t s = true →
      scd2Changed keyCols targetCols t s = false := by
  unfold scd2_close at ht
  rw [List.mem_map] at ht
  obtain ⟨t0, ht0, hft⟩ := ht
  split at hft
  · rename_i hc
    exfalso
    rw [Bool.and_eq_true] at hc
    have hncur := histClose_not_current now t0 hc.1
    rw [hft, hcur] at hncur
    cases hncur
  · rename_i hc
    subst hft
    refine ⟨ht0, ?_⟩
    intro s hs hmatch
    rw [Bool.and_eq_true, not_and] at hc
    have hany := hc hcur
    by_contra hch
    have hch2 : scd2Changed keyCols targetCols t0 s = true := by
      cases hcb : scd2Changed keyCols targetCols t0 s with
      | true => rfl
      | false => exact absurd hcb hch
    exact hany (List.any_eq_true.mpr ⟨s, hs, by rw [Bool.and_eq_true]; exact ⟨hmatch, hch2⟩⟩)

/-- Reading a projected column (with any trailing columns) gives the source
row's value. -/
theorem getV_projectCols_append (cols : List String) (r : Row) (rest : Row)
    (c : String) (hc : c ∈ cols) :
    getV (projectCols cols r ++ rest) c = getV r c := by
  induction cols with
  | nil => cases hc
  | cons c0 cs ih =>
    show getV ((c0, getV r c0) :: (projectCols cs r ++ rest)) c = _
    rw [getV_cons]
    by_cases h : c0 = c
    · rw [if_pos h, h]
    · rw [if_neg h]
      exact ih ((List.mem_cons.mp hc).resolve_left (fun he => h he.symm))

/-- Reading past the projected columns reaches the trailing columns. -/
theorem getV_projectCols_not_mem (cols : List String) (r : Row) (rest : Row)
    (c : String) (hc : c ∉ cols) :
    getV (projectCols cols r ++ rest) c = getV rest c := by
  induction cols with
  | nil => rfl
  | cons c0 cs ih =>
    show getV ((c0, getV r c0) :: (projectCols cs r ++ rest)) c = _
    rw [getV_cons]
    rw [if_neg (fun (he : c0 = c) => hc (he ▸ List.mem_cons_self c0 cs))]
    exact ih (fun he => hc (List.mem_cons_of_mem c0 he))

/-- Reading a projected column without trailing columns. -/
theorem getV_projectCols_mem (cols : List String) (r : Row) (c : String)
    (hc : c ∈ cols) : getV (projectCols cols r) c = getV r c := by
  have h := getV_projectCols_append cols r [] c hc
  rw [List.append_nil] at h
  exact h

/-- The key projection of a projected row (keys among the projected columns). -/
theorem keyProj_projectCols (keyCols targetCols : List String) (r : Row)
    (hsub : ∀ c ∈ keyCols, c ∈ targetCols) :
    keyProj keyCols (projectCols targetCols r) = keyProj keyCols r := by
  unfold keyProj
  exact List.map_congr_left (fun c hc => getV_projectCols_mem targetCols r c (hsub c hc))

/-- A freshly inserted SCD2 version is current. -/
theorem isCurrentRow_scd2NewRow (targetCols : List String) (now : Nat) (s : Row)
    (hni : "IsCurrent" ∉ targetCols) :
    isCurrentRow (scd2NewRow targetCols now s) = true := by
  unfold isCurrentRow scd2NewRow
  rw [getV_projectCols_not_mem _ _ _ _ hni]
  rfl

/-- A freshly inserted SCD2 version carries its batch row's key. -/
theorem keyProj_scd2NewRow (keyCols targetCols : List String) (now : Nat) (s : Row)
    (hsub : ∀ c ∈ keyCols, c ∈ targetCols) :
    keyProj keyCols (scd2NewRow targetCols now s) = keyProj keyCols s := by
  unfold keyProj scd2NewRow
  exact List.map_congr_left
    (fun c hc => getV_projectCols_append targetCols s _ c (hsub c hc))

/-- Against a batch row with fully non-NULL keys, the SQL key join holds
exactly when the key projections coincide. -/
theorem sqlKeyMatch_iff_keyProj (keyCols : List String) (t s : Row)
    (hs : ∀ c ∈ keyCols, (getV s c).isSome = true) :
    sqlKeyMatch keyCols t s = true ↔ keyProj keyCols t = keyProj keyCols s := by
  induction keyCols with
  | nil => simp [sqlKeyMatch, keyProj]
  | cons c cs ih =>
    have hsc := hs c (List.mem_cons_self c cs)
    obtain ⟨w, hw⟩ := Option.isSome_iff_exists.mp hsc
    have ihcs := ih (fun c2 hc2 => hs c2 (List.mem_cons_of_mem c hc2))
    unfold sqlKeyMatch at ihcs ⊢
    rw [List.all_cons, Bool.and_eq_true]
    unfold keyProj at ihcs ⊢
    rw [List.map_cons, List.map_cons, List.cons_eq_cons]
    rw [hw]
    constructor
    · rintro ⟨h1, h2⟩
      cases htc : getV t c with
      | none =>
        rw [htc] at h1
        cases h1
      | some x =>
        rw [htc] at h1
        have hx : x = w := by
          have h1b : decide (x = w) = true := h1
          exact of_decide_eq_true h1b
        exact ⟨by rw [hx], ihcs.mp h2⟩
    · rintro ⟨h1, h2⟩
      refine ⟨?_, ihcs.mpr h2⟩
      rw [h1]
      show sqlEqCell (some w) (some w) = true
      unfold sqlEqCell
      exact decide_eq_true rfl

/-- curCount distributes over append. -/
theorem curCount_append (keyCols : List String) (k : List Val) (l1 l2 : List Row) :
    curCount keyCols k (l1 ++ l2) = curCount keyCols k l1 + curCount keyCols k l2 := by
  unfold curCount
  exact List.countP_append _ _ _

/-- Every row the insert step emits for one batch row is that batch row's new
version. -/
theorem mem_scd2InsertRows (keyCols targetCols : List String) (now : Nat)
    (st : List Row) (s : Row) (x : Row)
    (hx : x ∈ scd2InsertRows keyCols targetCols now st s) :
    x = scd2NewRow targetCols now s := by
  unfold scd2InsertRows at hx
  dsimp only at hx
  split at hx
  · exact List.mem_singleton.mp hx
  · rw [List.mem_map] at hx
    obtain ⟨t, _, ht⟩ := hx
    exact ht.symm

/-- The inserted rows of a batch row with a different key contribute nothing
to a key's current count. -/
theorem curCount_scd2InsertRows_ne (keyCols targetCols : List String) (now : Nat)
    (st : List Row) (s : Row) (k : List Val)
    (hsub : ∀ c ∈ keyCols, c ∈ targetCols)
    (hkp : keyProj keyCols s ≠ k.map some) :
    curCount keyCols k (scd2InsertRows keyCols targetCols now st s) = 0 := by
  unfold curCount
  rw [List.countP_eq_zero]
  intro a ha
  rw [mem_scd2InsertRows keyCols targetCols now st s a ha]
  rw [Bool.and_eq_true, decide_eq_true_eq]
  rintro ⟨_, hk⟩
  rw [keyProj_scd2NewRow keyCols targetCols now s hsub] at hk
  exact hkp hk

/-- Current-count bound for the flattened insert output: with non-NULL,
deduplicated batch keys over a closed state with at most one current row for
the key, the state plus the inserted rows still hold at most one. -/
theorem curCount_insert_flatten_le (keyCols targetCols : List String)
    (hni : "IsCurrent" ∉ targetCols) (hsub : ∀ c ∈ keyCols, c ∈ targetCols)
    (now : Nat) (k : List Val) (C : List Row) :
    ∀ B : List Row,
      (∀ s ∈ B, ∀ c ∈ keyCols, (getV s c).isSome = true) →
      (B.map (keyProj keyCols)).Nodup →
      (∀ t ∈ C, isCurrentRow t = true → ∀ s ∈ B, sqlKeyMatch keyCols t s = true →
        scd2Changed keyCols targetCols t s = false) →
      curCount keyCols k C ≤ 1 →
      curCount keyCols k C +
        curCount keyCols k ((B.map (scd2InsertRows keyCols targetCols now C)).flatten) ≤ 1 := by
  intro B
  induction B with
  | nil =>
    intro _ _ _ hcc
    simpa [curCount] using hcc
  | cons s B2 ih =>
    intro hkeys hnd hclosed hcc
    rw [List.map_cons, List.flatten_cons, curCount_append]
    have hkeys2 : ∀ s2 ∈ B2, ∀ c ∈ keyCols, (getV s2 c).isSome = true :=
      fun s2 hs2 => hkeys s2 (List.mem_cons_of_mem s hs2)
    have hnd2 : (B2.map (keyProj keyCols)).Nodup := by
      rw [List.map_cons, List.nodup_cons] at hnd
      exact hnd.2
    have hndhead : keyProj keyCols s ∉ B2.map (keyProj keyCols) := by
      rw [List.map_cons, List.nodup_cons] at hnd
      exact hnd.1
    have hclosed2 : ∀ t ∈ C, isCurrentRow t = true → ∀ s2 ∈ B2,
        sqlKeyMatch keyCols t s2 = true → scd2Changed keyCols targetCols t s2 = false :=
      fun t ht hcur s2 hs2 => hclosed t ht hcur s2 (List.mem_cons_of_mem s hs2)
    by_cases hkp : keyProj keyCols s = k.map some
    · -- the head batch row carries the key in question
      have htail : curCount keyCols k
          ((B2.map (scd2InsertRows keyCols targetCols now C)).flatten) = 0 := by
        unfold curCount
        rw [List.countP_eq_zero]
        intro a ha
        rw [List.mem_flatten] at ha
        obtain ⟨l, hl, hal⟩ := ha
        rw [List.mem_map] at hl
        obtain ⟨s2, hs2, hls⟩ := hl
        subst hls
        rw [mem_scd2InsertRows keyCols targetCols now C s2 a hal]
        rw [Bool.and_eq_true, decide_eq_true_eq]
        rintro ⟨_, hk⟩
        rw [keyProj_scd2NewRow keyCols targetCols now s2 hsub] at hk
        exact hndhead (by
          rw [← hkp] at hk
          exact hk ▸ List.mem_map_of_mem (keyProj keyCols) hs2)
      have hmseq : C.filter (fun t => isCurrentRow t && sqlKeyMatch keyCols t s) =
          C.filter (fun t => isCurrentRow t && decide (keyProj keyCols t = k.map some)) := by
        apply List.filter_congr
        intro t _
        cases hcur : isCurrentRow t with
        | false => rfl
        | true =>
          simp only [Bool.true_and]
          by_cases hm : sqlKeyMatch keyCols t s = true
          · rw [hm]
            have hkt := (sqlKeyMatch_iff_keyProj keyCols t s
              (hkeys s (List.mem_cons_self s B2))).mp hm
            have h2 : keyProj keyCols t = k.map some := by rw [hkt, hkp]
            exact (decide_eq_true h2).symm
          · have hmf : sqlKeyMatch keyCols t s = false := by
              cases hmb : sqlKeyMatch keyCols t s with
              | true => exact absurd hmb hm
              | false => rfl
            rw [hmf]
            have h2 : ¬ (keyProj keyCols t = k.map some) := by
              intro he
              exact hm ((sqlKeyMatch_iff_keyProj keyCols t s
                (hkeys s (List.mem_cons_self s B2))).mpr (he.trans hkp.symm))
            exact (decide_eq_false h2).symm
      have hcceq : curCount keyCols k C =
          (C.filter (fun t => isCurrentRow t && sqlKeyMatch keyCols t s)).length := by
        unfold curCount
        rw [List.countP_eq_length_filter, ← hmseq]
      by_cases hemp : (C.filter (fun t => isCurrentRow t && sqlKeyMatch keyCols t s)).isEmpty = true
      · -- brand-new key: exactly one version inserted, none stored
        have hms0 : C.filter (fun t => isCurrentRow t && sqlKeyMatch keyCols t s) = [] := by
          cases hmsc : C.filter (fun t => isCurrentRow t && sqlKeyMatch keyCols t s) with
          | nil => rfl
          | cons a l =>
            rw [hmsc] at hemp
            cases hemp
        have hcc0 : curCount keyCols k C = 0 := by
          rw [hcceq, hms0]
          rfl
        have hhead : curCount keyCols k (scd2InsertRows keyCols targetCols now C s) = 1 := by
          unfold scd2InsertRows
          dsimp only
          rw [hms0]
          unfold curCount
          show (List.countP _ [scd2NewRow targetCols now s]) = 1
          rw [List.countP_cons]
          rw [List.countP_nil]
          rw [isCurrentRow_scd2NewRow targetCols now s hni]
          rw [keyProj_scd2NewRow keyCols targetCols now s hsub]
          rw [decide_eq_true hkp]
          rfl
        rw [hcc0, hhead, htail]
      · -- existing current row, necessarily unchanged: nothing inserted
        have hhead0 : curCount keyCols k (scd2InsertRows keyCols targetCols now C s) = 0 := by
          unfold scd2InsertRows
          dsimp only
          rw [if_neg hemp]
          have hflt : (C.filter (fun t => isCurrentRow t && sqlKeyMatch keyCols t s)).filter
              (fun t => scd2Changed keyCols targetCols t s) = [] := by
            rw [List.filter_eq_nil_iff]
            intro t htm
            have h3 := List.mem_filter.mp htm
            have h4 := h3.2
            rw [Bool.and_eq_true] at h4
            rw [hclosed t h3.1 h4.1 s (List.mem_cons_self s B2) h4.2]
            simp
          rw [hflt]
          rfl
        rw [hhead0, htail]
        simpa using hcc
    · -- the head batch row carries another key
      have hzero : curCount keyCols k (scd2InsertRows keyCols targetCols now C s) = 0 :=
        curCount_scd2InsertRows_ne keyCols targetCols now C s k hsub hkp
      rw [hzero]
      have hih := ih hkeys2 hnd2 hclosed2 hcc
      omega

/-- One scd2_merge of a key-deduplicated, non-NULL-key batch preserves the
single-current invariant. -/
theorem scd2_merge_single_current (keyCols targetCols : List String)
    (hni : "IsCurrent" ∉ targetCols) (hsub : ∀ c ∈ keyCols, c ∈ targetCols)
    (now : Nat) (df : List Row) (hgood : goodBatch keyCols df)
    (st : List Row) (hst : singleCurrent keyCols st) :
    singleCurrent keyCols (scd2_merge keyCols targetCols now df st) := by
  intro k
  unfold scd2_merge
  have hkeysB : ∀ s ∈ df.map (projectCols targetCols), ∀ c ∈ keyCols,
      (getV s c).isSome = true := by
    intro s hs c hc
    rw [List.mem_map] at hs
    obtain ⟨s0, hs0, hps⟩ := hs
    subst hps
    rw [getV_projectCols_mem targetCols s0 c (hsub c hc)]
    exact hgood.1 s0 hs0 c hc
  have hndB : ((df.map (projectCols targetCols)).map (keyProj keyCols)).Nodup := by
    rw [List.map_map]
    have heq : df.map (keyProj keyCols ∘ projectCols targetCols) =
        df.map (keyProj keyCols) :=
      List.map_congr_left (fun s _ => keyProj_projectCols keyCols targetCols s hsub)
    rw [heq]
    exact hgood.2
  have hcc : curCount keyCols k
      (scd2_close keyCols targetCols now (df.map (projectCols targetCols)) st) ≤ 1 :=
    le_trans (curCount_close_le keyCols targetCols now
      (df.map (projectCols targetCols)) st k) (hst k)
  have hclosed : ∀ t ∈ scd2_close keyCols targetCols now
      (df.map (projectCols targetCols)) st, isCurrentRow t = true →
      ∀ s ∈ df.map (projectCols targetCols), sqlKeyMatch keyCols t s = true →
        scd2Changed keyCols targetCols t s = false :=
    fun t ht hcur => (mem_close_current keyCols targetCols now
      (df.map (projectCols targetCols)) st t ht hcur).2
  unfold scd2_insert
  rw [curCount_append]
  exact curCount_insert_flatten_le keyCols targetCols hni hsub now k
    (scd2_close keyCols targetCols now (df.map (projectCols targetCols)) st)
    (df.map (projectCols targetCols)) hkeysB hndB hclosed hcc

/-- C5 amended: starting from any stored state in which every key has at most
one current row, any sequence of scd2_merge calls whose batches are
deduplicated on the key columns with non-NULL key values (the key columns
being data columns of the merge column list, distinct from the synthesized
IsCurrent flag) leaves every key with at most one stored current row. -/
theorem c5_single_current_preserved_dedup_batches (keyCols targetCols : List String)
    (hni : "IsCurrent" ∉ targetCols) (hsub : ∀ c ∈ keyCols, c ∈ targetCols)
    (batches : List (List Row × Nat))
    (hb : ∀ p ∈ batches, goodBatch keyCols p.1)
    (st : List Row) (hst : singleCurrent keyCols st) :
    singleCurrent keyCols
      (batches.foldl (fun s p => scd2_merge keyCols targetCols p.2 p.1 s) st) := by
  induction batches generalizing st with
  | nil => exact hst
  | cons p ps ih =>
    exact ih (fun q hq => hb q (List.mem_cons_of_mem p hq))
      (scd2_merge keyCols targetCols p.2 p.1 st)
      (scd2_merge_single_current keyCols targetCols hni hsub p.2 p.1
        (hb p (List.mem_cons_self p ps)) st hst)

/-- C5 witness: two merges of deduplicated single-key batches from the empty
store keep at most one current row per key. -/
theorem c5_single_current_witness :
    (("IsCurrent" ∉ (["k", "v"] : List String)) ∧
      (∀ c ∈ (["k"] : List String), c ∈ (["k", "v"] : List String)) ∧
      (∀ p ∈ [([sampleRow 1 (Val.vstr "a")], 5),
              ([sampleRow 1 (Val.vstr "b"), sampleRow 2 (Val.vstr "c")], 9)],
        goodBatch ["k"] p.1) ∧
      singleCurrent ["k"] []) ∧
    singleCurrent ["k"]
      ([([sampleRow 1 (Val.vstr "a")], 5),
        ([sampleRow 1 (Val.vstr "b"), sampleRow 2 (Val.vstr "c")], 9)].foldl
        (fun s p => scd2_merge ["k"] ["k", "v"] p.2 p.1 s) []) :=
  have hst : singleCurrent ["k"] ([] : List Row) := by
    intro k
    simp [curCount]
  have hb : ∀ p ∈ [([sampleRow 1 (Val.vstr "a")], 5),
      ([sampleRow 1 (Val.vstr "b"), sampleRow 2 (Val.vstr "c")], 9)],
      goodBatch ["k"] p.1 := by
    intro p hp
    rcases List.mem_cons.mp hp with rfl | hp2
    · exact ⟨by decide, by decide⟩
    · rcases List.mem_cons.mp hp2 with rfl | hp3
      · exact ⟨by decide, by decide⟩
      · cases hp3
  ⟨⟨by decide, by decide, hb, hst⟩,
    c5_single_current_preserved_dedup_batches ["k"] ["k", "v"] (by decide) (by decide)
      [([sampleRow 1 (Val.vstr "a")], 5),
       ([sampleRow 1 (Val.vstr "b"), sampleRow 2 (Val.vstr "c")], 9)] hb [] hst⟩

end ETL
